import Mathlib

/-
Shallow embedding of the oriented-rectangle overlap engine of the
aai-config-assist repository (src/utils/geometry_helper.py,
src/structures/rectangular_cuboid.py, src/core/separating_axis_theorem.py,
src/core/checker.py).

Conventions of the embedding:
  - Python floats are modeled as real numbers; numpy isclose(a, b) with its
    default tolerances (atol 1e-8, rtol 1e-5) is modeled exactly as
    abs (a - b) <= 1e-8 + 1e-5 * abs b.
  - Code that can raise is modeled with Option / Except: python min and max
    over an empty sequence raise, hence listMin and listMax return none on
    the empty list, and the engine propagates none.
  - numpy in-place mutation is modeled by explicit state passing:
    calculate_clockwise_rotated_2d_points returns a pair whose first
    component is the returned array and whose second component is the final
    contents of the points array passed by the caller (the source performs
    points -= center_of_rotation in place on it).
  - A python set of axis tuples is modeled as an insertion-ordered list
    without duplicates (addToAxisSet); the iteration order of a python set
    is implementation defined, and every statement proved below is
    independent of that order.
-/

open Classical

noncomputable section

/-- Absolute tolerance of numpy isclose (default atol). -/
def np_atol : ℝ := 1e-8

/-- Relative tolerance of numpy isclose (default rtol). -/
def np_rtol : ℝ := 1e-5

/-- numpy isclose(a, b) with default tolerances. -/
def np_isclose (a b : ℝ) : Prop := |a - b| ≤ np_atol + np_rtol * |b|

/-- numpy deg2rad. -/
def degToRad (d : ℝ) : ℝ := d * (Real.pi / 180)

/-- Python float modulo a % b for positive b, as used in (deg_angle + 90) % 360. -/
def pyMod (a b : ℝ) : ℝ := a - b * (⌊a / b⌋ : ℤ)

/-- Python min over a nonempty list; none models the ValueError on an empty one. -/
def listMin : List ℝ → Option ℝ
  | [] => none
  | x :: xs => some (xs.foldl min x)

/-- Python max over a nonempty list; none models the ValueError on an empty one. -/
def listMax : List ℝ → Option ℝ
  | [] => none
  | x :: xs => some (xs.foldl max x)

/-- geometry_helper.calculate_clockwise_rotated_2d_points. The first component
of the result is the returned array of rotated points; the second component is
the final contents of the points array supplied by the caller, which the source
translates in place by the statement points -= center_of_rotation. -/
def calculate_clockwise_rotated_2d_points
    (points : List (ℝ × ℝ)) (angle_deg : ℝ) (center_of_rotation : ℝ × ℝ) :
    List (ℝ × ℝ) × List (ℝ × ℝ) :=
  let translated := points.map fun p =>
    (p.1 - center_of_rotation.1, p.2 - center_of_rotation.2)
  let angle := degToRad angle_deg
  let rotated := translated.map fun p =>
    (Real.cos angle * p.1 + Real.sin angle * p.2,
     - Real.sin angle * p.1 + Real.cos angle * p.2)
  let result := rotated.map fun p =>
    (p.1 + center_of_rotation.1, p.2 + center_of_rotation.2)
  (result, translated)

/-- geometry_helper.calculate_vertices_of_axis_aligned_rectangle: top-left,
top-right, bottom-right, bottom-left corners of an unrotated rectangle. -/
def calculate_vertices_of_axis_aligned_rectangle
    (center : ℝ × ℝ) (width height : ℝ) : List (ℝ × ℝ) :=
  let half_width := 0.5 * width
  let half_height := 0.5 * height
  [ (center.1 - half_width, center.2 + half_height),
    (center.1 + half_width, center.2 + half_height),
    (center.1 + half_width, center.2 - half_height),
    (center.1 - half_width, center.2 - half_height) ]

/-- geometry_helper.calculate_vertices_of_rotated_rectangle. -/
def calculate_vertices_of_rotated_rectangle
    (center : ℝ × ℝ) (width height angle_deg : ℝ) : List (ℝ × ℝ) :=
  (calculate_clockwise_rotated_2d_points
    (calculate_vertices_of_axis_aligned_rectangle center width height)
    angle_deg center).1

/-- geometry_helper.determine_overlap_between_aligned_segments. -/
def determine_overlap_between_aligned_segments (segment1 segment2 : ℝ × ℝ) : ℝ :=
  let start1 := min segment1.1 segment1.2
  let stop1 := max segment1.1 segment1.2
  let start2 := min segment2.1 segment2.2
  let stop2 := max segment2.1 segment2.2
  max 0 (min stop2 stop1 - max start2 start1)

/-- geometry_helper.get_projected_distance_of_2d_points_onto_axis: dot product
of each point with the axis. -/
def get_projected_distance_of_2d_points_onto_axis
    (points : List (ℝ × ℝ)) (axis : ℝ × ℝ) : List ℝ :=
  points.map fun p => p.1 * axis.1 + p.2 * axis.2

/-- geometry_helper.get_min_max_projections; python min and max raise on an
empty sequence, modeled by none. -/
def get_min_max_projections (points : List (ℝ × ℝ)) (axis : ℝ × ℝ) :
    Option (ℝ × ℝ) :=
  let projections := get_projected_distance_of_2d_points_onto_axis points axis
  match listMin projections, listMax projections with
  | some mn, some mx => some (mn, mx)
  | _, _ => none

/-- The dtype of a numpy array, restricted to the cases the repository
distinguishes; np.float_ is an alias for float64. -/
inductive NpDtype
  | float64
  | float32
  | int64
deriving DecidableEq

/-- Whether a dtype is a floating-point dtype. -/
def NpDtype.isFloating : NpDtype → Bool
  | NpDtype.float64 => true
  | NpDtype.float32 => true
  | NpDtype.int64 => false

/-- A 3-element numpy array together with its dtype; the stored values are
modeled as reals whatever the dtype. -/
structure NpArray3 where
  dtype : NpDtype
  data : ℝ × ℝ × ℝ

/-- structures.rectangular_cuboid.RectangularCuboid. The center is stored in
the AAI layout (x, z, y): index 0 is x, index 1 is z, index 2 is the vertical
coordinate y (X_INDEX = 0, Z_INDEX = 1, Y_INDEX = 2 in the source). The field
lower_base_vertices mirrors the stored attribute set by the constructor. -/
structure RectangularCuboid where
  center : ℝ × ℝ × ℝ
  length : ℝ
  width : ℝ
  height : ℝ
  deg_rotation : ℝ
  name : String
  lower_base_vertices : List (ℝ × ℝ)

/-- A cuboid whose stored vertices agree with its other fields, as established
by the constructor (and re-established by resize); the property every instance
built by RectangularCuboid.init satisfies. -/
def WellFormed (c : RectangularCuboid) : Prop :=
  c.lower_base_vertices =
    calculate_vertices_of_rotated_rectangle
      (c.center.1, c.center.2.1) c.length c.width c.deg_rotation

/-- The record built by the success path of RectangularCuboid.__init__:
length, width, height are dimensions[0], dimensions[1], dimensions[2], and
lower_base_vertices is computed from the first two center components with
length passed as the 2d width and width passed as the 2d height. -/
def mkCuboid (center : ℝ × ℝ × ℝ) (dimensions : ℝ × ℝ × ℝ) (rotation : ℝ)
    (name : String) : RectangularCuboid :=
  { center := center
    length := dimensions.1
    width := dimensions.2.1
    height := dimensions.2.2
    deg_rotation := rotation
    name := name
    lower_base_vertices :=
      calculate_vertices_of_rotated_rectangle
        (center.1, center.2.1) dimensions.1 dimensions.2.1 rotation }

/-- RectangularCuboid.__init__: raises unless the centroid array dtype is
np.float_ (an alias for float64); on success stores the fields and the
computed lower_base_vertices. -/
def RectangularCuboid.init (lower_base_centroid : NpArray3)
    (dimensions : ℝ × ℝ × ℝ) (rotation : ℝ) (name : String) :
    Except String RectangularCuboid :=
  if lower_base_centroid.dtype ≠ NpDtype.float64 then
    Except.error "The lower_base_centroid variable should be an array of floats."
  else
    Except.ok (mkCuboid lower_base_centroid.data dimensions rotation name)

/-- Moving a cuboid horizontally by a 2d vector, recomputing its vertices the
way the editor callbacks do after a move. -/
def translate2d (c : RectangularCuboid) (v : ℝ × ℝ) : RectangularCuboid :=
  mkCuboid (c.center.1 + v.1, c.center.2.1 + v.2, c.center.2.2)
    (c.length, c.width, c.height) c.deg_rotation c.name

/-- separating_axis_theorem.get_potential_separation_axes: flips the sign of
the clockwise angle, and returns the unit vectors at that angle and at that
angle plus 90 modulo 360. -/
def get_potential_separation_axes (deg_angle : ℝ) : (ℝ × ℝ) × (ℝ × ℝ) :=
  let d := - deg_angle
  let rad_angle1 := degToRad d
  let rad_angle2 := degToRad (pyMod (d + 90) 360)
  ((Real.cos rad_angle1, Real.sin rad_angle1),
   (Real.cos rad_angle2, Real.sin rad_angle2))

/-- Adding an element to a python set, modeled as an insertion-ordered
duplicate-free list. -/
def addToAxisSet (s : List (ℝ × ℝ)) (a : ℝ × ℝ) : List (ℝ × ℝ) :=
  if a ∈ s then s else s ++ [a]

/-- The set possible_separation_axes built by the loop in
apply_separating_axis_theorem from the two cuboid rotations. -/
def possible_separation_axes (c1 c2 : RectangularCuboid) : List (ℝ × ℝ) :=
  let a := get_potential_separation_axes c1.deg_rotation
  let b := get_potential_separation_axes c2.deg_rotation
  addToAxisSet (addToAxisSet (addToAxisSet (addToAxisSet [] a.1) a.2) b.1) b.2

/-- The depth-direction (vertical) overlap computed first by
apply_separating_axis_theorem from segments [center[2], center[2] + height]. -/
def depth_overlap (c1 c2 : RectangularCuboid) : ℝ :=
  determine_overlap_between_aligned_segments
    (c1.center.2.2, c1.center.2.2 + c1.height)
    (c2.center.2.2, c2.center.2.2 + c2.height)

/-- The body of the main loop of apply_separating_axis_theorem for one axis:
the overlap of the two projection segments on that axis, with the axis kept
alongside as the dictionary key; none models a raise inside the loop. -/
def axis_overlap_entry (c1 c2 : RectangularCuboid) (axis : ℝ × ℝ) :
    Option ((ℝ × ℝ) × ℝ) :=
  match get_min_max_projections c1.lower_base_vertices axis,
        get_min_max_projections c2.lower_base_vertices axis with
  | some s1, some s2 =>
      some (axis, determine_overlap_between_aligned_segments s1 s2)
  | _, _ => none

/-- The per-axis overlap of the two cuboids (the value stored in the overlaps
dictionary); the default 0 branch is unreachable for well-formed cuboids. -/
def overlap_on_axis (c1 c2 : RectangularCuboid) (axis : ℝ × ℝ) : ℝ :=
  match get_min_max_projections c1.lower_base_vertices axis,
        get_min_max_projections c2.lower_base_vertices axis with
  | some s1, some s2 => determine_overlap_between_aligned_segments s1 s2
  | _, _ => 0

/-- Running a fallible computation over a list, stopping at the first failure,
as a raising python for-loop does. -/
def mapOption (f : α → Option β) : List α → Option (List β)
  | [] => some []
  | x :: xs =>
    match f x, mapOption f xs with
    | some y, some ys => some (y :: ys)
    | _, _ => none

/-- Second half of apply_separating_axis_theorem, from the filled overlaps
dictionary, modeled as the association list of (axis, overlap) pairs in axis
order: do_overlap is false exactly when some axis has overlap isclose to 0;
in the overlap case the mtv is the minimum recorded overlap value times the
first axis whose recorded overlap equals that minimum. -/
def sat_from_entries (overlaps : List ((ℝ × ℝ) × ℝ)) : Option (ℝ × ℝ) :=
  if ∃ e ∈ overlaps, np_isclose e.2 0 then
    some (0, 0)
  else
    (listMin (overlaps.map Prod.snd)).bind fun min_overlap_distance =>
      ((overlaps.filter fun e => e.2 = min_overlap_distance).head?).map fun e =>
        (min_overlap_distance * e.1.1, min_overlap_distance * e.1.2)

/-- separating_axis_theorem.apply_separating_axis_theorem. Returns the minimum
translation vector, the zero vector standing for no overlap; none models an
uncaught exception (Option.bind propagates a raise from the main loop). -/
def apply_separating_axis_theorem (c1 c2 : RectangularCuboid) :
    Option (ℝ × ℝ) :=
  if np_isclose (depth_overlap c1 c2) 0 then
    some (0, 0)
  else
    (mapOption (axis_overlap_entry c1 c2) (possible_separation_axes c1 c2)).bind
      sat_from_entries

/-- The criterion by which Checker.check_overlaps_between_cuboids counts a pair
as overlapping: the engine succeeded and its mtv is not componentwise isclose
to the zero vector. -/
def pair_overlaps (c1 c2 : RectangularCuboid) : Prop :=
  ∃ v, apply_separating_axis_theorem c1 c2 = some v ∧
    ¬ (np_isclose v.1 0 ∧ np_isclose v.2 0)

/-- All pairs (cuboids[i], cuboids[j]) with i < j, in the order of the double
loop of Checker.check_overlaps_between_cuboids. -/
def allPairs : List α → List (α × α)
  | [] => []
  | x :: xs => (xs.map fun y => (x, y)) ++ allPairs xs

/-- The accumulating loop of Checker.check_overlaps_between_cuboids: for each
pair in order, run the engine (a raise propagates through Option.bind), and
add both names when the mtv is not componentwise isclose to the zero vector. -/
def check_fold : Finset String → List (RectangularCuboid × RectangularCuboid) →
    Option (Finset String)
  | acc, [] => some acc
  | acc, p :: rest =>
    (apply_separating_axis_theorem p.1 p.2).bind fun mtv =>
      if np_isclose mtv.1 0 ∧ np_isclose mtv.2 0 then
        check_fold acc rest
      else
        check_fold (insert p.1.name (insert p.2.name acc)) rest

/-- Checker.check_overlaps_between_cuboids: the set of names of items involved
in at least one pair whose mtv is not isclose to the zero vector. -/
def check_overlaps_between_cuboids (cuboids : List RectangularCuboid) :
    Option (Finset String) :=
  check_fold ∅ (allPairs cuboids)

/- Concrete instances used by witnesses and counterexamples below. -/

/-- First cuboid of the regression test: center (0.5, 0, 0), length 3, width 2,
height 2, rotation 0. -/
def test_cuboid1 : RectangularCuboid := mkCuboid (0.5, 0, 0) (3, 2, 2) 0 "item1"

/-- Second cuboid of the regression test: center (2.7, 0, 0), length 3, width 2,
height 2, rotation 0. -/
def test_cuboid2 : RectangularCuboid := mkCuboid (2.7, 0, 0) (3, 2, 2) 0 "item2"

/-- A thin axis-aligned item whose x-extent [0, 1] lies strictly inside the
x-extent [-10, 10] of wide_cuboid. -/
def thin_cuboid : RectangularCuboid := mkCuboid (0.5, 0, 0) (1, 20, 1) 0 "thin"

/-- A wide axis-aligned item containing thin_cuboid on the x axis. -/
def wide_cuboid : RectangularCuboid := mkCuboid (0, 0, 0) (20, 20, 1) 0 "wide"

/-- An item with negative height -1 whose base is at y = 1. -/
def negh_cuboid : RectangularCuboid := mkCuboid (0, 0, 1) (2, 2, -1) 0 "deg1"

/-- An ordinary item at the origin with height 2. -/
def tall_cuboid : RectangularCuboid := mkCuboid (0, 0, 0) (2, 2, 2) 0 "deg2"

/-- An item with height exactly 0. -/
def flat_cuboid : RectangularCuboid := mkCuboid (0, 0, 0) (2, 2, 0) 0 "flat"

/-- A unit item resting on the ground (vertical interval [0, 1]). -/
def stack_low : RectangularCuboid := mkCuboid (0, 0, 0) (1, 1, 1) 0 "low"

/-- A unit item at elevation 5 (vertical interval [5, 6]), horizontally
identical to stack_low. -/
def stack_high : RectangularCuboid := mkCuboid (0, 0, 5) (1, 1, 1) 0 "high"

/-- Scene item A, overlapping scene item C only. -/
def scene_a : RectangularCuboid := mkCuboid (0, 0, 0) (2, 2, 2) 0 "A"

/-- Scene item B, far from both A and C. -/
def scene_b : RectangularCuboid := mkCuboid (10, 0, 0) (2, 2, 2) 0 "B"

/-- Scene item C, overlapping scene item A only. -/
def scene_c : RectangularCuboid := mkCuboid (1, 0, 0) (2, 2, 2) 0 "C"

/-- A float32 centroid array (floating-point but not np.float_). -/
def centroid_f32 : NpArray3 := ⟨NpDtype.float32, (1, 2, 3)⟩

/-- A float64 centroid array. -/
def centroid_f64 : NpArray3 := ⟨NpDtype.float64, (1, 2, 3)⟩

end

/- Basic facts about the python min and max folds. -/

theorem foldl_min_le_init (xs : List ℝ) (x : ℝ) : xs.foldl min x ≤ x := by
  induction xs generalizing x with
  | nil => simp
  | cons y ys ih =>
    simp only [List.foldl_cons]
    exact le_trans (ih (min x y)) (min_le_left x y)

theorem foldl_min_le_of_mem {y : ℝ} {xs : List ℝ} (h : y ∈ xs) (x : ℝ) :
    xs.foldl min x ≤ y := by
  induction xs generalizing x with
  | nil => simp at h
  | cons z zs ih =>
    simp only [List.foldl_cons]
    rcases List.mem_cons.mp h with h1 | h2
    · subst h1
      exact le_trans (foldl_min_le_init zs (min x y)) (min_le_right x y)
    · exact ih h2 (min x z)

theorem foldl_min_eq_init_or_mem (xs : List ℝ) (x : ℝ) :
    xs.foldl min x = x ∨ xs.foldl min x ∈ xs := by
  induction xs generalizing x with
  | nil => left; rfl
  | cons y ys ih =>
    simp only [List.foldl_cons]
    rcases ih (min x y) with h | h
    · rcases le_total x y with hxy | hyx
      · left; rw [h, min_eq_left hxy]
      · right; rw [h, min_eq_right hyx]; exact List.mem_cons_self y ys
    · right; exact List.mem_cons_of_mem y h

theorem init_le_foldl_max (xs : List ℝ) (x : ℝ) : x ≤ xs.foldl max x := by
  induction xs generalizing x with
  | nil => simp
  | cons y ys ih =>
    simp only [List.foldl_cons]
    exact le_trans (le_max_left x y) (ih (max x y))

theorem foldl_min_map_add (xs : List ℝ) (x k : ℝ) :
    (xs.map fun t => t + k).foldl min (x + k) = xs.foldl min x + k := by
  induction xs generalizing x with
  | nil => rfl
  | cons y ys ih =>
    simp only [List.map_cons, List.foldl_cons, min_add_add_right]
    exact ih (min x y)

theorem foldl_max_map_add (xs : List ℝ) (x k : ℝ) :
    (xs.map fun t => t + k).foldl max (x + k) = xs.foldl max x + k := by
  induction xs generalizing x with
  | nil => rfl
  | cons y ys ih =>
    simp only [List.map_cons, List.foldl_cons, max_add_add_right]
    exact ih (max x y)

theorem head?_of_ne_nil {l : List α} (h : l ≠ []) :
    ∃ e, l.head? = some e ∧ e ∈ l := by
  cases l with
  | nil => exact absurd rfl h
  | cons x xs => exact ⟨x, rfl, List.mem_cons_self x xs⟩

/- Facts about the modeled python set of axes. -/

theorem mem_addToAxisSet {x a : ℝ × ℝ} {s : List (ℝ × ℝ)} :
    x ∈ addToAxisSet s a ↔ x ∈ s ∨ x = a := by
  unfold addToAxisSet
  by_cases h : a ∈ s
  · rw [if_pos h]
    constructor
    · exact Or.inl
    · rintro (hx | hx)
      · exact hx
      · rw [hx]; exact h
  · rw [if_neg h]
    simp [List.mem_append]

theorem addToAxisSet_ne_nil (s : List (ℝ × ℝ)) (a : ℝ × ℝ) :
    addToAxisSet s a ≠ [] := by
  unfold addToAxisSet
  by_cases h : a ∈ s
  · rw [if_pos h]
    intro hs
    rw [hs] at h
    exact List.not_mem_nil a h
  · rw [if_neg h]
    simp

theorem possible_separation_axes_ne_nil (c1 c2 : RectangularCuboid) :
    possible_separation_axes c1 c2 ≠ [] :=
  addToAxisSet_ne_nil _ _

theorem possible_separation_axes_unit {c1 c2 : RectangularCuboid} {ax : ℝ × ℝ}
    (h : ax ∈ possible_separation_axes c1 c2) : ax.1 ^ 2 + ax.2 ^ 2 = 1 := by
  unfold possible_separation_axes at h
  rcases mem_addToAxisSet.mp h with h | h
  · rcases mem_addToAxisSet.mp h with h | h
    · rcases mem_addToAxisSet.mp h with h | h
      · rcases mem_addToAxisSet.mp h with h | h
        · simp at h
        · rw [h]; exact Real.cos_sq_add_sin_sq _
      · rw [h]; exact Real.cos_sq_add_sin_sq _
    · rw [h]; exact Real.cos_sq_add_sin_sq _
  · rw [h]; exact Real.cos_sq_add_sin_sq _

theorem mapOption_eq_map {f : α → Option β} {g : α → β} :
    ∀ {l : List α}, (∀ a ∈ l, f a = some (g a)) →
      mapOption f l = some (l.map g) := by
  intro l
  induction l with
  | nil => intro _; rfl
  | cons x xs ih =>
    intro h
    have hx := h x (List.mem_cons_self x xs)
    have hxs := ih fun a ha => h a (List.mem_cons_of_mem x ha)
    unfold mapOption
    rw [hx, hxs]
    rfl

/- Well-formedness facts. -/

theorem wellFormed_mkCuboid (center dimensions : ℝ × ℝ × ℝ) (rotation : ℝ)
    (name : String) : WellFormed (mkCuboid center dimensions rotation name) := rfl

theorem get_min_max_projections_wf (c : RectangularCuboid) (h : WellFormed c)
    (axis : ℝ × ℝ) :
    ∃ mn mx, get_min_max_projections c.lower_base_vertices axis = some (mn, mx) := by
  rw [h]
  exact ⟨_, _, rfl⟩

theorem get_min_max_le {points : List (ℝ × ℝ)} {axis : ℝ × ℝ} {mn mx : ℝ}
    (h : get_min_max_projections points axis = some (mn, mx)) : mn ≤ mx := by
  cases points with
  | nil =>
    simp [get_min_max_projections, get_projected_distance_of_2d_points_onto_axis,
      listMin, listMax] at h
  | cons p ps =>
    simp only [get_min_max_projections, get_projected_distance_of_2d_points_onto_axis,
      List.map_cons, listMin, listMax, Option.some.injEq, Prod.mk.injEq] at h
    obtain ⟨h1, h2⟩ := h
    rw [← h1, ← h2]
    exact le_trans (foldl_min_le_init _ _) (init_le_foldl_max _ _)

theorem get_min_max_projections_map_add {points : List (ℝ × ℝ)} {axis v : ℝ × ℝ}
    {mn mx : ℝ} (h : get_min_max_projections points axis = some (mn, mx)) :
    get_min_max_projections (points.map fun p => (p.1 + v.1, p.2 + v.2)) axis
      = some (mn + (v.1 * axis.1 + v.2 * axis.2),
              mx + (v.1 * axis.1 + v.2 * axis.2)) := by
  cases points with
  | nil =>
    simp [get_min_max_projections, get_projected_distance_of_2d_points_onto_axis,
      listMin, listMax] at h
  | cons p ps =>
    simp only [get_min_max_projections, get_projected_distance_of_2d_points_onto_axis,
      List.map_cons, listMin, listMax, Option.some.injEq, Prod.mk.injEq] at h
    obtain ⟨h1, h2⟩ := h
    have hmaps : List.map (fun q : ℝ × ℝ => q.1 * axis.1 + q.2 * axis.2)
        (List.map (fun q : ℝ × ℝ => (q.1 + v.1, q.2 + v.2)) ps)
        = List.map (fun t => t + (v.1 * axis.1 + v.2 * axis.2))
            (List.map (fun q : ℝ × ℝ => q.1 * axis.1 + q.2 * axis.2) ps) := by
      simp only [List.map_map]
      apply List.map_congr_left
      intro q _
      simp only [Function.comp_apply]
      ring
    have hk : (p.1 + v.1) * axis.1 + (p.2 + v.2) * axis.2
        = (p.1 * axis.1 + p.2 * axis.2) + (v.1 * axis.1 + v.2 * axis.2) := by
      ring
    simp only [get_min_max_projections, get_projected_distance_of_2d_points_onto_axis,
      List.map_cons, listMin, listMax, hmaps, hk,
      foldl_min_map_add, foldl_max_map_add, h1, h2]

/- Characterization of the engine branches for well-formed cuboids. -/

theorem axis_overlap_entry_of_wf {c1 c2 : RectangularCuboid} (h1 : WellFormed c1)
    (h2 : WellFormed c2) (axis : ℝ × ℝ) :
    axis_overlap_entry c1 c2 axis = some (axis, overlap_on_axis c1 c2 axis) := by
  obtain ⟨mn1, mx1, e1⟩ := get_min_max_projections_wf c1 h1 axis
  obtain ⟨mn2, mx2, e2⟩ := get_min_max_projections_wf c2 h2 axis
  unfold axis_overlap_entry overlap_on_axis
  rw [e1, e2]

theorem sat_entries {c1 c2 : RectangularCuboid} (h1 : WellFormed c1)
    (h2 : WellFormed c2) :
    mapOption (axis_overlap_entry c1 c2) (possible_separation_axes c1 c2)
      = some ((possible_separation_axes c1 c2).map
          fun ax => (ax, overlap_on_axis c1 c2 ax)) :=
  mapOption_eq_map fun a _ => axis_overlap_entry_of_wf h1 h2 a

theorem sat_depth_far_exists_close {c1 c2 : RectangularCuboid} (h1 : WellFormed c1)
    (h2 : WellFormed c2) (hd : ¬ np_isclose (depth_overlap c1 c2) 0)
    (hex : ∃ ax ∈ possible_separation_axes c1 c2,
      np_isclose (overlap_on_axis c1 c2 ax) 0) :
    apply_separating_axis_theorem c1 c2 = some (0, 0) := by
  unfold apply_separating_axis_theorem
  rw [if_neg hd, sat_entries h1 h2, Option.some_bind]
  have hcond : ∃ e ∈ (possible_separation_axes c1 c2).map
      fun ax => (ax, overlap_on_axis c1 c2 ax), np_isclose e.2 0 := by
    obtain ⟨ax, hax, hclose⟩ := hex
    exact ⟨(ax, overlap_on_axis c1 c2 ax), List.mem_map_of_mem _ hax, hclose⟩
  unfold sat_from_entries
  rw [if_pos hcond]

theorem sat_min_axis {c1 c2 : RectangularCuboid} (h1 : WellFormed c1)
    (h2 : WellFormed c2) (hd : ¬ np_isclose (depth_overlap c1 c2) 0)
    (hfar : ¬ ∃ ax ∈ possible_separation_axes c1 c2,
      np_isclose (overlap_on_axis c1 c2 ax) 0) :
    ∃ ax ∈ possible_separation_axes c1 c2,
      (∀ b ∈ possible_separation_axes c1 c2,
        overlap_on_axis c1 c2 ax ≤ overlap_on_axis c1 c2 b) ∧
      apply_separating_axis_theorem c1 c2
        = some (overlap_on_axis c1 c2 ax * ax.1, overlap_on_axis c1 c2 ax * ax.2) := by
  obtain ⟨a0, rest, hcons⟩ :=
    List.exists_cons_of_ne_nil (possible_separation_axes_ne_nil c1 c2)
  set f : (ℝ × ℝ) → ℝ := overlap_on_axis c1 c2 with hf
  set entries : List ((ℝ × ℝ) × ℝ) :=
    (possible_separation_axes c1 c2).map fun ax => (ax, f ax) with hentries
  set m : ℝ := (rest.map f).foldl min (f a0) with hm
  have hvalues : entries.map Prod.snd = f a0 :: rest.map f := by
    rw [hentries, hcons]
    simp [List.map_map]
  have hmin : listMin (entries.map Prod.snd) = some m := by
    rw [hvalues]; rfl
  have hmle : ∀ b ∈ possible_separation_axes c1 c2, m ≤ f b := by
    intro b hb
    rw [hcons] at hb
    rcases List.mem_cons.mp hb with hb | hb
    · rw [hb] at *; exact foldl_min_le_init _ _
    · exact foldl_min_le_of_mem (List.mem_map_of_mem f hb) _
  have hmmem : ∃ ax1 ∈ possible_separation_axes c1 c2, f ax1 = m := by
    rcases foldl_min_eq_init_or_mem (rest.map f) (f a0) with hc | hc
    · exact ⟨a0, by rw [hcons]; exact List.mem_cons_self a0 rest, hc.symm⟩
    · rw [← hm] at hc
      obtain ⟨ax1, hax1, hfx⟩ := List.mem_map.mp hc
      exact ⟨ax1, by rw [hcons]; exact List.mem_cons_of_mem a0 hax1, hfx⟩
  have hfilt : (entries.filter fun e => e.2 = m) ≠ [] := by
    obtain ⟨ax1, hax1, hfx⟩ := hmmem
    apply List.ne_nil_of_mem (a := (ax1, f ax1))
    rw [List.mem_filter]
    refine ⟨List.mem_map_of_mem _ hax1, ?_⟩
    simp [hfx]
  obtain ⟨e, hhead, hemem⟩ := head?_of_ne_nil hfilt
  rw [List.mem_filter] at hemem
  obtain ⟨hee, hev⟩ := hemem
  have hev2 : e.2 = m := by simpa using hev
  obtain ⟨ax, haxmem, haxe⟩ := List.mem_map.mp hee
  have hax1 : e.1 = ax := by rw [← haxe]
  have hax2 : e.2 = f ax := by rw [← haxe]
  have hnotex : ¬ ∃ e ∈ entries, np_isclose e.2 0 := by
    rintro ⟨e', he', hc'⟩
    obtain ⟨ax', hax', haxe'⟩ := List.mem_map.mp he'
    exact hfar ⟨ax', hax', by rw [← haxe'] at hc'; exact hc'⟩
  have hengine : apply_separating_axis_theorem c1 c2 = some (m * e.1.1, m * e.1.2) := by
    unfold apply_separating_axis_theorem
    rw [if_neg hd, sat_entries h1 h2, ← hentries, Option.some_bind]
    unfold sat_from_entries
    rw [if_neg hnotex, hmin, Option.some_bind, hhead, Option.map_some']
  refine ⟨ax, haxmem, ?_, ?_⟩
  · intro b hb
    rw [← hax2] at *
    rw [hev2]
    exact hmle b hb
  · rw [hengine, hax1, ← hax2, hev2]

/- Evaluation helpers for rotation-0 cuboids. -/

theorem pyMod_small {a b : ℝ} (hb : 0 < b) (h0 : 0 ≤ a) (hab : a < b) :
    pyMod a b = a := by
  unfold pyMod
  have hfl : ⌊a / b⌋ = 0 := by
    rw [Int.floor_eq_zero_iff]
    exact ⟨div_nonneg h0 hb.le, (div_lt_one hb).mpr hab⟩
  rw [hfl]
  push_cast
  ring

theorem degToRad_zero : degToRad (-(0:ℝ)) = 0 := by
  simp [degToRad]

theorem gpsa_zero : get_potential_separation_axes 0 = ((1, 0), (0, 1)) := by
  have hm : pyMod (-(0:ℝ) + 90) 360 = -(0:ℝ) + 90 := by
    apply pyMod_small <;> norm_num
  simp only [get_potential_separation_axes, hm]
  rw [show (-(0:ℝ) + 90) = (90:ℝ) by norm_num]
  rw [degToRad_zero, show degToRad (90:ℝ) = Real.pi / 2 by unfold degToRad; ring]
  simp [Real.cos_pi_div_two, Real.sin_pi_div_two]

theorem axes_rot0 {c1 c2 : RectangularCuboid} (h1 : c1.deg_rotation = 0)
    (h2 : c2.deg_rotation = 0) :
    possible_separation_axes c1 c2 = [(1, 0), (0, 1)] := by
  simp only [possible_separation_axes, h1, h2, gpsa_zero]
  have hstep1 : addToAxisSet ([] : List (ℝ × ℝ)) (1, 0) = [(1, 0)] := by
    unfold addToAxisSet
    rw [if_neg (List.not_mem_nil _)]
    rfl
  have hstep2 : addToAxisSet [((1:ℝ), (0:ℝ))] (0, 1) = [(1, 0), (0, 1)] := by
    unfold addToAxisSet
    rw [if_neg]
    · rfl
    · simp
  have hstep3 : addToAxisSet [((1:ℝ), (0:ℝ)), (0, 1)] (1, 0) = [(1, 0), (0, 1)] := by
    unfold addToAxisSet
    rw [if_pos (List.mem_cons_self _ _)]
  have hstep4 : addToAxisSet [((1:ℝ), (0:ℝ)), (0, 1)] (0, 1) = [(1, 0), (0, 1)] := by
    unfold addToAxisSet
    rw [if_pos (List.mem_cons_of_mem _ (List.mem_cons_self _ _))]
  rw [hstep1, hstep2, hstep3, hstep4]

theorem mkCuboid_vertices_rot0 (cx cz cy l w h : ℝ) (name : String) :
    (mkCuboid (cx, cz, cy) (l, w, h) 0 name).lower_base_vertices =
      [ (cx - 0.5 * l, cz + 0.5 * w), (cx + 0.5 * l, cz + 0.5 * w),
        (cx + 0.5 * l, cz - 0.5 * w), (cx - 0.5 * l, cz - 0.5 * w) ] := by
  simp only [mkCuboid, calculate_vertices_of_rotated_rectangle,
    calculate_clockwise_rotated_2d_points, calculate_vertices_of_axis_aligned_rectangle,
    List.map_cons, List.map_nil]
  rw [show degToRad 0 = 0 by simp [degToRad]]
  simp only [Real.cos_zero, Real.sin_zero, one_mul, zero_mul, neg_zero, add_zero,
    zero_add]
  norm_num
  repeat' apply And.intro
  all_goals ring

theorem foldl_min_abba {a b : ℝ} (hab : a ≤ b) : List.foldl min a [b, b, a] = a := by
  simp [List.foldl, min_eq_left hab, min_self]

theorem foldl_max_abba {a b : ℝ} (hab : a ≤ b) : List.foldl max a [b, b, a] = b := by
  simp [List.foldl, max_eq_right hab, max_self, max_eq_left hab]

theorem foldl_min_aabb {a b : ℝ} (hba : b ≤ a) : List.foldl min a [a, b, b] = b := by
  simp [List.foldl, min_self, min_eq_right hba]

theorem foldl_max_aabb {a b : ℝ} (hba : b ≤ a) : List.foldl max a [a, b, b] = a := by
  simp [List.foldl, max_self, max_eq_left hba]

theorem minmax_rot0_x (cx cz cy l w h : ℝ) (name : String) (hl : 0 ≤ l) :
    get_min_max_projections
      (mkCuboid (cx, cz, cy) (l, w, h) 0 name).lower_base_vertices (1, 0)
      = some (cx - 0.5 * l, cx + 0.5 * l) := by
  rw [mkCuboid_vertices_rot0]
  have hp : get_projected_distance_of_2d_points_onto_axis
      [ (cx - 0.5 * l, cz + 0.5 * w), (cx + 0.5 * l, cz + 0.5 * w),
        (cx + 0.5 * l, cz - 0.5 * w), (cx - 0.5 * l, cz - 0.5 * w) ] ((1:ℝ), (0:ℝ))
      = [cx - 0.5 * l, cx + 0.5 * l, cx + 0.5 * l, cx - 0.5 * l] := by
    unfold get_projected_distance_of_2d_points_onto_axis
    simp only [List.map_cons, List.map_nil]
    norm_num
  simp only [get_min_max_projections, hp, listMin, listMax]
  have hab : cx - 0.5 * l ≤ cx + 0.5 * l := by linarith
  rw [foldl_min_abba hab, foldl_max_abba hab]

theorem minmax_rot0_z (cx cz cy l w h : ℝ) (name : String) (hw : 0 ≤ w) :
    get_min_max_projections
      (mkCuboid (cx, cz, cy) (l, w, h) 0 name).lower_base_vertices (0, 1)
      = some (cz - 0.5 * w, cz + 0.5 * w) := by
  rw [mkCuboid_vertices_rot0]
  have hp : get_projected_distance_of_2d_points_onto_axis
      [ (cx - 0.5 * l, cz + 0.5 * w), (cx + 0.5 * l, cz + 0.5 * w),
        (cx + 0.5 * l, cz - 0.5 * w), (cx - 0.5 * l, cz - 0.5 * w) ] ((0:ℝ), (1:ℝ))
      = [cz + 0.5 * w, cz + 0.5 * w, cz - 0.5 * w, cz - 0.5 * w] := by
    unfold get_projected_distance_of_2d_points_onto_axis
    simp only [List.map_cons, List.map_nil]
    norm_num
  simp only [get_min_max_projections, hp, listMin, listMax]
  have hba : cz - 0.5 * w ≤ cz + 0.5 * w := by linarith
  rw [foldl_min_aabb hba, foldl_max_aabb hba]

theorem overlap_on_axis_rot0_x (cx1 cz1 cy1 l1 w1 h1 cx2 cz2 cy2 l2 w2 h2 : ℝ)
    (n1 n2 : String) (hl1 : 0 ≤ l1) (hl2 : 0 ≤ l2) :
    overlap_on_axis (mkCuboid (cx1, cz1, cy1) (l1, w1, h1) 0 n1)
      (mkCuboid (cx2, cz2, cy2) (l2, w2, h2) 0 n2) (1, 0)
      = determine_overlap_between_aligned_segments
          (cx1 - 0.5 * l1, cx1 + 0.5 * l1) (cx2 - 0.5 * l2, cx2 + 0.5 * l2) := by
  unfold overlap_on_axis
  rw [minmax_rot0_x cx1 cz1 cy1 l1 w1 h1 n1 hl1,
    minmax_rot0_x cx2 cz2 cy2 l2 w2 h2 n2 hl2]

theorem overlap_on_axis_rot0_z (cx1 cz1 cy1 l1 w1 h1 cx2 cz2 cy2 l2 w2 h2 : ℝ)
    (n1 n2 : String) (hw1 : 0 ≤ w1) (hw2 : 0 ≤ w2) :
    overlap_on_axis (mkCuboid (cx1, cz1, cy1) (l1, w1, h1) 0 n1)
      (mkCuboid (cx2, cz2, cy2) (l2, w2, h2) 0 n2) (0, 1)
      = determine_overlap_between_aligned_segments
          (cz1 - 0.5 * w1, cz1 + 0.5 * w1) (cz2 - 0.5 * w2, cz2 + 0.5 * w2) := by
  unfold overlap_on_axis
  rw [minmax_rot0_z cx1 cz1 cy1 l1 w1 h1 n1 hw1,
    minmax_rot0_z cx2 cz2 cy2 l2 w2 h2 n2 hw2]

theorem sat_rot0 (cx1 cz1 cy1 l1 w1 h1 cx2 cz2 cy2 l2 w2 h2 : ℝ) (n1 n2 : String)
    (hl1 : 0 ≤ l1) (hw1 : 0 ≤ w1) (hl2 : 0 ≤ l2) (hw2 : 0 ≤ w2)
    (hd : ¬ np_isclose (determine_overlap_between_aligned_segments (cy1, cy1 + h1)
      (cy2, cy2 + h2)) 0) :
    apply_separating_axis_theorem (mkCuboid (cx1, cz1, cy1) (l1, w1, h1) 0 n1)
        (mkCuboid (cx2, cz2, cy2) (l2, w2, h2) 0 n2)
      = (if np_isclose (determine_overlap_between_aligned_segments
              (cx1 - 0.5 * l1, cx1 + 0.5 * l1) (cx2 - 0.5 * l2, cx2 + 0.5 * l2)) 0
            ∨ np_isclose (determine_overlap_between_aligned_segments
              (cz1 - 0.5 * w1, cz1 + 0.5 * w1) (cz2 - 0.5 * w2, cz2 + 0.5 * w2)) 0
         then some (0, 0)
         else if determine_overlap_between_aligned_segments
              (cx1 - 0.5 * l1, cx1 + 0.5 * l1) (cx2 - 0.5 * l2, cx2 + 0.5 * l2)
            ≤ determine_overlap_between_aligned_segments
              (cz1 - 0.5 * w1, cz1 + 0.5 * w1) (cz2 - 0.5 * w2, cz2 + 0.5 * w2)
         then some (determine_overlap_between_aligned_segments
              (cx1 - 0.5 * l1, cx1 + 0.5 * l1) (cx2 - 0.5 * l2, cx2 + 0.5 * l2), 0)
         else some (0, determine_overlap_between_aligned_segments
              (cz1 - 0.5 * w1, cz1 + 0.5 * w1) (cz2 - 0.5 * w2, cz2 + 0.5 * w2))) := by
  set ox : ℝ := determine_overlap_between_aligned_segments
    (cx1 - 0.5 * l1, cx1 + 0.5 * l1) (cx2 - 0.5 * l2, cx2 + 0.5 * l2) with hox
  set oz : ℝ := determine_overlap_between_aligned_segments
    (cz1 - 0.5 * w1, cz1 + 0.5 * w1) (cz2 - 0.5 * w2, cz2 + 0.5 * w2) with hoz
  have hwf1 : WellFormed (mkCuboid (cx1, cz1, cy1) (l1, w1, h1) 0 n1) :=
    wellFormed_mkCuboid _ _ _ _
  have hwf2 : WellFormed (mkCuboid (cx2, cz2, cy2) (l2, w2, h2) 0 n2) :=
    wellFormed_mkCuboid _ _ _ _
  have hdd : ¬ np_isclose (depth_overlap
      (mkCuboid (cx1, cz1, cy1) (l1, w1, h1) 0 n1)
      (mkCuboid (cx2, cz2, cy2) (l2, w2, h2) 0 n2)) 0 := hd
  have haxes : possible_separation_axes
      (mkCuboid (cx1, cz1, cy1) (l1, w1, h1) 0 n1)
      (mkCuboid (cx2, cz2, cy2) (l2, w2, h2) 0 n2) = [(1, 0), (0, 1)] :=
    axes_rot0 rfl rfl
  have ho1 := overlap_on_axis_rot0_x cx1 cz1 cy1 l1 w1 h1 cx2 cz2 cy2 l2 w2 h2
    n1 n2 hl1 hl2
  have ho2 := overlap_on_axis_rot0_z cx1 cz1 cy1 l1 w1 h1 cx2 cz2 cy2 l2 w2 h2
    n1 n2 hw1 hw2
  rw [← hox] at ho1
  rw [← hoz] at ho2
  unfold apply_separating_axis_theorem
  rw [if_neg hdd, sat_entries hwf1 hwf2, haxes, List.map_cons, List.map_cons,
    List.map_nil, ho1, ho2, Option.some_bind]
  unfold sat_from_entries
  have hexists : (∃ e ∈ [(((1:ℝ), (0:ℝ)), ox), (((0:ℝ), (1:ℝ)), oz)],
      np_isclose e.2 0) ↔ (np_isclose ox 0 ∨ np_isclose oz 0) := by
    simp
  by_cases hcase : np_isclose ox 0 ∨ np_isclose oz 0
  · rw [if_pos (hexists.mpr hcase), if_pos hcase]
  · rw [if_neg (fun hh => hcase (hexists.mp hh)), if_neg hcase]
    have hsnd : ([(((1:ℝ), (0:ℝ)), ox), (((0:ℝ), (1:ℝ)), oz)].map Prod.snd)
        = [ox, oz] := rfl
    rw [hsnd]
    have hmin : listMin [ox, oz] = some (min ox oz) := rfl
    rw [hmin, Option.some_bind]
    by_cases hmxz : ox ≤ oz
    · rw [min_eq_left hmxz]
      have hfil : ([(((1:ℝ), (0:ℝ)), ox), (((0:ℝ), (1:ℝ)), oz)].filter
          fun e => e.2 = ox).head? = some (((1:ℝ), (0:ℝ)), ox) := by
        rw [List.filter_cons]
        simp
      rw [hfil, Option.map_some', if_pos hmxz]
      norm_num
    · have hzx : oz ≤ ox := le_of_not_le hmxz
      rw [min_eq_right hzx]
      have hne : ((((1:ℝ), (0:ℝ)), ox)).2 = oz → False := by
        intro h
        exact hmxz (le_of_eq h)
      have hfil : ([(((1:ℝ), (0:ℝ)), ox), (((0:ℝ), (1:ℝ)), oz)].filter
          fun e => e.2 = oz).head? = some (((0:ℝ), (1:ℝ)), oz) := by
        rw [List.filter_cons]
        simp only [decide_eq_true_eq]
        rw [if_neg hne]
        rw [List.filter_cons]
        simp
      rw [hfil, Option.map_some', if_neg hmxz]
      norm_num

/- Facts about isclose and overlap values. -/

theorem overlap_nonneg (s1 s2 : ℝ × ℝ) :
    0 ≤ determine_overlap_between_aligned_segments s1 s2 :=
  le_max_left _ _

theorem np_isclose_zero_iff {a : ℝ} (ha : 0 ≤ a) :
    np_isclose a 0 ↔ a ≤ np_atol := by
  unfold np_isclose
  rw [sub_zero, abs_of_nonneg ha, abs_zero, mul_zero, add_zero]

theorem np_isclose_zero_zero : np_isclose 0 0 := by
  unfold np_isclose np_atol np_rtol
  norm_num

/- Claim theorems start here. -/

/-- C3: whenever the vertical intervals [center[2], center[2] + height] of the
two footprints have an interval overlap that is numerically zero (isclose to 0),
apply_separating_axis_theorem returns the zero translation vector, the no
overlap result, immediately, whatever the horizontal placement, sizes and
rotations are. -/
theorem sat_vertical_disjoint_gives_zero (c1 c2 : RectangularCuboid)
    (h : np_isclose (determine_overlap_between_aligned_segments
      (c1.center.2.2, c1.center.2.2 + c1.height)
      (c2.center.2.2, c2.center.2.2 + c2.height)) 0) :
    apply_separating_axis_theorem c1 c2 = some (0, 0) := by
  have h2 : np_isclose (depth_overlap c1 c2) 0 := h
  unfold apply_separating_axis_theorem
  rw [if_pos h2]

/-- C3 witness: the two vertically stacked unit items of the spec example,
with vertical intervals [0, 1] and [5, 6], report no overlap even though their
horizontal footprints coincide. -/
theorem sat_vertical_disjoint_gives_zero_witness :
    np_isclose (determine_overlap_between_aligned_segments
      (stack_low.center.2.2, stack_low.center.2.2 + stack_low.height)
      (stack_high.center.2.2, stack_high.center.2.2 + stack_high.height)) 0 ∧
    apply_separating_axis_theorem stack_low stack_high = some (0, 0) := by
  have hc : np_isclose (determine_overlap_between_aligned_segments
      (stack_low.center.2.2, stack_low.center.2.2 + stack_low.height)
      (stack_high.center.2.2, stack_high.center.2.2 + stack_high.height)) 0 := by
    have h0 : determine_overlap_between_aligned_segments
        (stack_low.center.2.2, stack_low.center.2.2 + stack_low.height)
        (stack_high.center.2.2, stack_high.center.2.2 + stack_high.height) = 0 := by
      show determine_overlap_between_aligned_segments ((0:ℝ), 0 + 1) ((5:ℝ), 5 + 1) = 0
      simp only [determine_overlap_between_aligned_segments]
      norm_num [min_def, max_def]
    rw [h0]
    exact np_isclose_zero_zero
  exact ⟨hc, sat_vertical_disjoint_gives_zero stack_low stack_high hc⟩

theorem sat_isSome (c1 c2 : RectangularCuboid)
    (h1 : WellFormed c1) (h2 : WellFormed c2) :
    (apply_separating_axis_theorem c1 c2).isSome = true := by
  by_cases hd : np_isclose (depth_overlap c1 c2) 0
  · unfold apply_separating_axis_theorem
    rw [if_pos hd]
    rfl
  · by_cases hex : ∃ ax ∈ possible_separation_axes c1 c2,
      np_isclose (overlap_on_axis c1 c2 ax) 0
    · rw [sat_depth_far_exists_close h1 h2 hd hex]
      rfl
    · obtain ⟨ax, _, _, heng⟩ := sat_min_axis h1 h2 hd hex
      rw [heng]
      rfl

/-- C8: for every pair of well-formed footprints, with any finite center
components, any zero or negative width, length or height, and any rotation,
apply_separating_axis_theorem returns a value (no error branch is reached),
and so does the projection kernel get_min_max_projections it calls on a
footprint vertex list. -/
theorem sat_never_raises (c1 c2 : RectangularCuboid) (axis : ℝ × ℝ)
    (h1 : WellFormed c1) (h2 : WellFormed c2) :
    (apply_separating_axis_theorem c1 c2).isSome = true ∧
    (get_min_max_projections c1.lower_base_vertices axis).isSome = true := by
  constructor
  · exact sat_isSome c1 c2 h1 h2
  · obtain ⟨mn, mx, h⟩ := get_min_max_projections_wf c1 h1 axis
    rw [h]
    rfl

/-- C8 witness: a concrete well-formed pair on which the engine and the
projection kernel both return values. -/
theorem sat_never_raises_witness :
    (apply_separating_axis_theorem test_cuboid1 test_cuboid2).isSome = true ∧
    (get_min_max_projections test_cuboid1.lower_base_vertices (1, 0)).isSome
      = true :=
  sat_never_raises test_cuboid1 test_cuboid2 (1, 0)
    (wellFormed_mkCuboid _ _ _ _) (wellFormed_mkCuboid _ _ _ _)

/-- C1: for every pair of well-formed footprints whose vertical overlap is not
numerically zero, the engine returns the zero vector exactly when some
candidate separation axis has projection overlap isclose to zero; and when no
axis does, the returned mtv is the smallest per-axis overlap value times a
unit axis attaining that minimum. -/
theorem sat_zero_iff_separating_axis (c1 c2 : RectangularCuboid)
    (h1 : WellFormed c1) (h2 : WellFormed c2)
    (hd : ¬ np_isclose (depth_overlap c1 c2) 0) :
    (apply_separating_axis_theorem c1 c2 = some (0, 0) ↔
      ∃ ax ∈ possible_separation_axes c1 c2,
        np_isclose (overlap_on_axis c1 c2 ax) 0) ∧
    ((¬ ∃ ax ∈ possible_separation_axes c1 c2,
        np_isclose (overlap_on_axis c1 c2 ax) 0) →
      ∃ ax ∈ possible_separation_axes c1 c2,
        ax.1 ^ 2 + ax.2 ^ 2 = 1 ∧
        (∀ b ∈ possible_separation_axes c1 c2,
          overlap_on_axis c1 c2 ax ≤ overlap_on_axis c1 c2 b) ∧
        apply_separating_axis_theorem c1 c2
          = some (overlap_on_axis c1 c2 ax * ax.1,
                  overlap_on_axis c1 c2 ax * ax.2)) := by
  constructor
  · constructor
    · intro hzero
      by_contra hnex
      obtain ⟨ax, haxmem, _, heng⟩ := sat_min_axis h1 h2 hd hnex
      rw [heng] at hzero
      have hdzero : ¬ np_isclose (overlap_on_axis c1 c2 ax) 0 :=
        fun hc => hnex ⟨ax, haxmem, hc⟩
      have hne : overlap_on_axis c1 c2 ax ≠ 0 := by
        intro h0
        apply hdzero
        rw [h0]
        exact np_isclose_zero_zero
      have hpair := Option.some.injEq _ _ ▸ hzero
      have hx : overlap_on_axis c1 c2 ax * ax.1 = 0 ∧
          overlap_on_axis c1 c2 ax * ax.2 = 0 := by
        have := Prod.mk.injEq _ _ _ _ ▸ hpair
        simpa using hzero
      have hax1 : ax.1 = 0 := by
        rcases mul_eq_zero.mp hx.1 with h | h
        · exact absurd h hne
        · exact h
      have hax2 : ax.2 = 0 := by
        rcases mul_eq_zero.mp hx.2 with h | h
        · exact absurd h hne
        · exact h
      have hunit := possible_separation_axes_unit haxmem
      rw [hax1, hax2] at hunit
      norm_num at hunit
    · exact sat_depth_far_exists_close h1 h2 hd
  · intro hnex
    obtain ⟨ax, haxmem, hminim, heng⟩ := sat_min_axis h1 h2 hd hnex
    exact ⟨ax, haxmem, possible_separation_axes_unit haxmem, hminim, heng⟩

/- Concrete engine evaluations for rotation-0 instances. -/

theorem overlap_segments_eval_22 :
    determine_overlap_between_aligned_segments ((0:ℝ), 0 + 2) ((0:ℝ), 0 + 2) = 2 := by
  simp only [determine_overlap_between_aligned_segments]
  norm_num [min_def, max_def]

theorem not_isclose_two : ¬ np_isclose (2:ℝ) 0 := by
  rw [np_isclose_zero_iff (by norm_num)]
  norm_num [np_atol]

theorem sat_test_pair_eval :
    apply_separating_axis_theorem test_cuboid1 test_cuboid2 = some (0.8, 0) := by
  unfold test_cuboid1 test_cuboid2
  have hd : ¬ np_isclose (determine_overlap_between_aligned_segments
      ((0:ℝ), 0 + 2) ((0:ℝ), 0 + 2)) 0 := by
    rw [overlap_segments_eval_22]
    exact not_isclose_two
  rw [sat_rot0 0.5 0 0 3 2 2 2.7 0 0 3 2 2 "item1" "item2"
    (by norm_num) (by norm_num) (by norm_num) (by norm_num) hd]
  have hox : determine_overlap_between_aligned_segments
      ((0.5:ℝ) - 0.5 * 3, 0.5 + 0.5 * 3) ((2.7:ℝ) - 0.5 * 3, 2.7 + 0.5 * 3)
      = 0.8 := by
    simp only [determine_overlap_between_aligned_segments]
    norm_num [min_def, max_def]
  have hoz : determine_overlap_between_aligned_segments
      ((0:ℝ) - 0.5 * 2, 0 + 0.5 * 2) ((0:ℝ) - 0.5 * 2, 0 + 0.5 * 2) = 2 := by
    simp only [determine_overlap_between_aligned_segments]
    norm_num [min_def, max_def]
  rw [hox, hoz]
  rw [if_neg, if_pos (by norm_num)]
  rintro (h | h)
  · rw [np_isclose_zero_iff (by norm_num)] at h
    norm_num [np_atol] at h
  · exact not_isclose_two h

theorem overlap_segments_eval_11 :
    determine_overlap_between_aligned_segments ((0:ℝ), 0 + 1) ((0:ℝ), 0 + 1) = 1 := by
  simp only [determine_overlap_between_aligned_segments]
  norm_num [min_def, max_def]

theorem not_isclose_one : ¬ np_isclose (1:ℝ) 0 := by
  rw [np_isclose_zero_iff (by norm_num)]
  norm_num [np_atol]

theorem sat_thin_wide_eval :
    apply_separating_axis_theorem thin_cuboid wide_cuboid = some (1, 0) := by
  unfold thin_cuboid wide_cuboid
  have hd : ¬ np_isclose (determine_overlap_between_aligned_segments
      ((0:ℝ), 0 + 1) ((0:ℝ), 0 + 1)) 0 := by
    rw [overlap_segments_eval_11]
    exact not_isclose_one
  rw [sat_rot0 0.5 0 0 1 20 1 0 0 0 20 20 1 "thin" "wide"
    (by norm_num) (by norm_num) (by norm_num) (by norm_num) hd]
  have hox : determine_overlap_between_aligned_segments
      ((0.5:ℝ) - 0.5 * 1, 0.5 + 0.5 * 1) ((0:ℝ) - 0.5 * 20, 0 + 0.5 * 20) = 1 := by
    simp only [determine_overlap_between_aligned_segments]
    norm_num [min_def, max_def]
  have hoz : determine_overlap_between_aligned_segments
      ((0:ℝ) - 0.5 * 20, 0 + 0.5 * 20) ((0:ℝ) - 0.5 * 20, 0 + 0.5 * 20) = 20 := by
    simp only [determine_overlap_between_aligned_segments]
    norm_num [min_def, max_def]
  rw [hox, hoz]
  rw [if_neg, if_pos (by norm_num)]
  rintro (h | h)
  · exact not_isclose_one h
  · rw [np_isclose_zero_iff (by norm_num)] at h
    norm_num [np_atol] at h

theorem translate_thin_eval :
    translate2d thin_cuboid (1, 0) = mkCuboid (1.5, 0, 0) (1, 20, 1) 0 "thin" := by
  unfold translate2d thin_cuboid mkCuboid
  norm_num

theorem translate_wide_eval :
    translate2d wide_cuboid (1, 0) = mkCuboid (1, 0, 0) (20, 20, 1) 0 "wide" := by
  unfold translate2d wide_cuboid mkCuboid
  norm_num

theorem sat_thin_shifted_wide_eval :
    apply_separating_axis_theorem (translate2d thin_cuboid (1, 0)) wide_cuboid
      = some (1, 0) := by
  rw [translate_thin_eval]
  unfold wide_cuboid
  have hd : ¬ np_isclose (determine_overlap_between_aligned_segments
      ((0:ℝ), 0 + 1) ((0:ℝ), 0 + 1)) 0 := by
    rw [overlap_segments_eval_11]
    exact not_isclose_one
  rw [sat_rot0 1.5 0 0 1 20 1 0 0 0 20 20 1 "thin" "wide"
    (by norm_num) (by norm_num) (by norm_num) (by norm_num) hd]
  have hox : determine_overlap_between_aligned_segments
      ((1.5:ℝ) - 0.5 * 1, 1.5 + 0.5 * 1) ((0:ℝ) - 0.5 * 20, 0 + 0.5 * 20) = 1 := by
    simp only [determine_overlap_between_aligned_segments]
    norm_num [min_def, max_def]
  have hoz : determine_overlap_between_aligned_segments
      ((0:ℝ) - 0.5 * 20, 0 + 0.5 * 20) ((0:ℝ) - 0.5 * 20, 0 + 0.5 * 20) = 20 := by
    simp only [determine_overlap_between_aligned_segments]
    norm_num [min_def, max_def]
  rw [hox, hoz]
  rw [if_neg, if_pos (by norm_num)]
  rintro (h | h)
  · exact not_isclose_one h
  · rw [np_isclose_zero_iff (by norm_num)] at h
    norm_num [np_atol] at h

theorem sat_thin_wide_shifted_eval :
    apply_separating_axis_theorem thin_cuboid (translate2d wide_cuboid (1, 0))
      = some (1, 0) := by
  rw [translate_wide_eval]
  unfold thin_cuboid
  have hd : ¬ np_isclose (determine_overlap_between_aligned_segments
      ((0:ℝ), 0 + 1) ((0:ℝ), 0 + 1)) 0 := by
    rw [overlap_segments_eval_11]
    exact not_isclose_one
  rw [sat_rot0 0.5 0 0 1 20 1 1 0 0 20 20 1 "thin" "wide"
    (by norm_num) (by norm_num) (by norm_num) (by norm_num) hd]
  have hox : determine_overlap_between_aligned_segments
      ((0.5:ℝ) - 0.5 * 1, 0.5 + 0.5 * 1) ((1:ℝ) - 0.5 * 20, 1 + 0.5 * 20) = 1 := by
    simp only [determine_overlap_between_aligned_segments]
    norm_num [min_def, max_def]
  have hoz : determine_overlap_between_aligned_segments
      ((0:ℝ) - 0.5 * 20, 0 + 0.5 * 20) ((0:ℝ) - 0.5 * 20, 0 + 0.5 * 20) = 20 := by
    simp only [determine_overlap_between_aligned_segments]
    norm_num [min_def, max_def]
  rw [hox, hoz]
  rw [if_neg, if_pos (by norm_num)]
  rintro (h | h)
  · exact not_isclose_one h
  · rw [np_isclose_zero_iff (by norm_num)] at h
    norm_num [np_atol] at h

theorem overlap_segments_eval_negh :
    determine_overlap_between_aligned_segments ((1:ℝ), 1 + (-1)) ((0:ℝ), 0 + 2)
      = 1 := by
  simp only [determine_overlap_between_aligned_segments]
  norm_num [min_def, max_def]

theorem sat_negh_eval :
    apply_separating_axis_theorem negh_cuboid tall_cuboid = some (2, 0) := by
  unfold negh_cuboid tall_cuboid
  have hd : ¬ np_isclose (determine_overlap_between_aligned_segments
      ((1:ℝ), 1 + (-1)) ((0:ℝ), 0 + 2)) 0 := by
    rw [overlap_segments_eval_negh]
    exact not_isclose_one
  rw [sat_rot0 0 0 1 2 2 (-1) 0 0 0 2 2 2 "deg1" "deg2"
    (by norm_num) (by norm_num) (by norm_num) (by norm_num) hd]
  have hox : determine_overlap_between_aligned_segments
      ((0:ℝ) - 0.5 * 2, 0 + 0.5 * 2) ((0:ℝ) - 0.5 * 2, 0 + 0.5 * 2) = 2 := by
    simp only [determine_overlap_between_aligned_segments]
    norm_num [min_def, max_def]
  rw [hox]
  rw [if_neg, if_pos le_rfl]
  rintro (h | h) <;> exact not_isclose_two h

theorem sat_scene_ab_eval :
    apply_separating_axis_theorem scene_a scene_b = some (0, 0) := by
  unfold scene_a scene_b
  have hd : ¬ np_isclose (determine_overlap_between_aligned_segments
      ((0:ℝ), 0 + 2) ((0:ℝ), 0 + 2)) 0 := by
    rw [overlap_segments_eval_22]
    exact not_isclose_two
  rw [sat_rot0 0 0 0 2 2 2 10 0 0 2 2 2 "A" "B"
    (by norm_num) (by norm_num) (by norm_num) (by norm_num) hd]
  have hox : determine_overlap_between_aligned_segments
      ((0:ℝ) - 0.5 * 2, 0 + 0.5 * 2) ((10:ℝ) - 0.5 * 2, 10 + 0.5 * 2) = 0 := by
    simp only [determine_overlap_between_aligned_segments]
    norm_num [min_def, max_def]
  rw [hox]
  rw [if_pos (Or.inl np_isclose_zero_zero)]

theorem sat_scene_ac_eval :
    apply_separating_axis_theorem scene_a scene_c = some (1, 0) := by
  unfold scene_a scene_c
  have hd : ¬ np_isclose (determine_overlap_between_aligned_segments
      ((0:ℝ), 0 + 2) ((0:ℝ), 0 + 2)) 0 := by
    rw [overlap_segments_eval_22]
    exact not_isclose_two
  rw [sat_rot0 0 0 0 2 2 2 1 0 0 2 2 2 "A" "C"
    (by norm_num) (by norm_num) (by norm_num) (by norm_num) hd]
  have hox : determine_overlap_between_aligned_segments
      ((0:ℝ) - 0.5 * 2, 0 + 0.5 * 2) ((1:ℝ) - 0.5 * 2, 1 + 0.5 * 2) = 1 := by
    simp only [determine_overlap_between_aligned_segments]
    norm_num [min_def, max_def]
  have hoz : determine_overlap_between_aligned_segments
      ((0:ℝ) - 0.5 * 2, 0 + 0.5 * 2) ((0:ℝ) - 0.5 * 2, 0 + 0.5 * 2) = 2 := by
    simp only [determine_overlap_between_aligned_segments]
    norm_num [min_def, max_def]
  rw [hox, hoz]
  rw [if_neg, if_pos (by norm_num)]
  rintro (h | h)
  · exact not_isclose_one h
  · exact not_isclose_two h

theorem sat_scene_bc_eval :
    apply_separating_axis_theorem scene_b scene_c = some (0, 0) := by
  unfold scene_b scene_c
  have hd : ¬ np_isclose (determine_overlap_between_aligned_segments
      ((0:ℝ), 0 + 2) ((0:ℝ), 0 + 2)) 0 := by
    rw [overlap_segments_eval_22]
    exact not_isclose_two
  rw [sat_rot0 10 0 0 2 2 2 1 0 0 2 2 2 "B" "C"
    (by norm_num) (by norm_num) (by norm_num) (by norm_num) hd]
  have hox : determine_overlap_between_aligned_segments
      ((10:ℝ) - 0.5 * 2, 10 + 0.5 * 2) ((1:ℝ) - 0.5 * 2, 1 + 0.5 * 2) = 0 := by
    simp only [determine_overlap_between_aligned_segments]
    norm_num [min_def, max_def]
  rw [hox]
  rw [if_pos (Or.inl np_isclose_zero_zero)]

/-- C6: for the axis-aligned pair with centers (0.5, 0, 0) and (2.7, 0, 0),
each of length 3, width 2, height 2 and rotation 0, the engine reports an
overlap and the mtv equals (0.8, 0) exactly in the real-number model, hence
approximately as the claim states. -/
theorem sat_regression_pair :
    apply_separating_axis_theorem test_cuboid1 test_cuboid2 = some (0.8, 0) ∧
    pair_overlaps test_cuboid1 test_cuboid2 := by
  refine ⟨sat_test_pair_eval, ⟨(0.8, 0), sat_test_pair_eval, ?_⟩⟩
  rintro ⟨h, _⟩
  have h1 : np_isclose (0.8:ℝ) 0 := h
  rw [np_isclose_zero_iff (by norm_num)] at h1
  norm_num [np_atol] at h1

/-- C7 amended: a footprint whose height is exactly 0 has vertical interval
[y, y], whose overlap with any segment is 0, so the engine returns the zero
no-overlap vector for every horizontal placement, size and rotation; for a
strictly negative height the code does not treat the interval as empty (the
min/max normalisation turns (y, y + h) into the genuine interval
[y + h, y]), see the counterexample. -/
theorem sat_zero_height_no_overlap (c1 c2 : RectangularCuboid)
    (h : c1.height = 0 ∨ c2.height = 0) :
    apply_separating_axis_theorem c1 c2 = some (0, 0) := by
  have hdv : depth_overlap c1 c2 = 0 := by
    simp only [depth_overlap, determine_overlap_between_aligned_segments]
    rcases h with h | h
    · rw [h]
      simp only [add_zero, min_self, max_self]
      apply max_eq_left
      have ha : min (max c2.center.2.2 (c2.center.2.2 + c2.height))
          c1.center.2.2 ≤ c1.center.2.2 := min_le_right _ _
      have hb : c1.center.2.2 ≤ max (min c2.center.2.2
          (c2.center.2.2 + c2.height)) c1.center.2.2 := le_max_right _ _
      linarith
    · rw [h]
      simp only [add_zero, min_self, max_self]
      apply max_eq_left
      have ha : min c2.center.2.2 (max c1.center.2.2
          (c1.center.2.2 + c1.height)) ≤ c2.center.2.2 := min_le_left _ _
      have hb : c2.center.2.2 ≤ max c2.center.2.2 (min c1.center.2.2
          (c1.center.2.2 + c1.height)) := le_max_left _ _
      linarith
  have hcl : np_isclose (depth_overlap c1 c2) 0 := by
    rw [hdv]
    exact np_isclose_zero_zero
  unfold apply_separating_axis_theorem
  rw [if_pos hcl]

/-- C7 witness: the pair (height 0, height 2) yields the zero vector. -/
theorem sat_zero_height_no_overlap_witness :
    (flat_cuboid.height = 0 ∨ tall_cuboid.height = 0) ∧
    apply_separating_axis_theorem flat_cuboid tall_cuboid = some (0, 0) := by
  have h : flat_cuboid.height = 0 ∨ tall_cuboid.height = 0 := Or.inl rfl
  exact ⟨h, sat_zero_height_no_overlap flat_cuboid tall_cuboid h⟩

/-- C7 counterexample: negh_cuboid has height -1 ≤ 0, yet the engine does not
return the no-overlap result against tall_cuboid: it reports mtv (2, 0),
since the reordered vertical interval [0, 1] overlaps [0, 2]. -/
theorem sat_negative_height_counterexample :
    negh_cuboid.height ≤ 0 ∧
    apply_separating_axis_theorem negh_cuboid tall_cuboid ≠ some (0, 0) := by
  constructor
  · norm_num [negh_cuboid, mkCuboid]
  · rw [sat_negh_eval]
    intro h
    have h2 := Option.some.inj h
    have h1 : (2:ℝ) = 0 := congrArg Prod.fst h2
    norm_num at h1

/-- C1 witness: the regression pair is vertically overlapping (depth overlap 2)
and instantiates the separating-axis equivalence. -/
theorem sat_zero_iff_separating_axis_witness :
    ¬ np_isclose (depth_overlap test_cuboid1 test_cuboid2) 0 ∧
    (apply_separating_axis_theorem test_cuboid1 test_cuboid2 = some (0, 0) ↔
      ∃ ax ∈ possible_separation_axes test_cuboid1 test_cuboid2,
        np_isclose (overlap_on_axis test_cuboid1 test_cuboid2 ax) 0) := by
  have hd : ¬ np_isclose (depth_overlap test_cuboid1 test_cuboid2) 0 := by
    have h2 : depth_overlap test_cuboid1 test_cuboid2 = 2 := by
      show determine_overlap_between_aligned_segments ((0:ℝ), 0 + 2)
        ((0:ℝ), 0 + 2) = 2
      exact overlap_segments_eval_22
    rw [h2]
    exact not_isclose_two
  exact ⟨hd, (sat_zero_iff_separating_axis test_cuboid1 test_cuboid2
    (wellFormed_mkCuboid _ _ _ _) (wellFormed_mkCuboid _ _ _ _) hd).1⟩

/-- C2 counterexample: thin_cuboid projects strictly inside wide_cuboid along
the minimising axis (interval [0, 1] inside [-10, 10]); the engine returns mtv
(1, 0), but translating either of the two footprints by that mtv leaves a
pair on which the engine still reports an overlap with mtv (1, 0), so the
returned vector does not remove the overlap. -/
theorem mtv_containment_counterexample :
    apply_separating_axis_theorem thin_cuboid wide_cuboid = some (1, 0) ∧
    pair_overlaps thin_cuboid wide_cuboid ∧
    pair_overlaps (translate2d thin_cuboid (1, 0)) wide_cuboid ∧
    pair_overlaps thin_cuboid (translate2d wide_cuboid (1, 0)) := by
  have hnc : ¬ (np_isclose ((1:ℝ), (0:ℝ)).1 0 ∧ np_isclose ((1:ℝ), (0:ℝ)).2 0) := by
    rintro ⟨h, _⟩
    exact not_isclose_one h
  exact ⟨sat_thin_wide_eval,
    ⟨(1, 0), sat_thin_wide_eval, hnc⟩,
    ⟨(1, 0), sat_thin_shifted_wide_eval, hnc⟩,
    ⟨(1, 0), sat_thin_wide_shifted_eval, hnc⟩⟩

theorem calculate_vertices_translate (cx cz w h a v1 v2 : ℝ) :
    calculate_vertices_of_rotated_rectangle (cx + v1, cz + v2) w h a
      = (calculate_vertices_of_rotated_rectangle (cx, cz) w h a).map
          (fun p => (p.1 + v1, p.2 + v2)) := by
  simp only [calculate_vertices_of_rotated_rectangle,
    calculate_clockwise_rotated_2d_points,
    calculate_vertices_of_axis_aligned_rectangle, List.map_cons, List.map_nil]
  norm_num
  repeat' apply And.intro
  all_goals ring

/-- C2 amended: when the pair is vertically overlapping and the engine returns
the mtv along a candidate axis ax, and on that axis neither projection
interval contains the other (formally one interval has both endpoints at most
the endpoints of the other), then translating the appropriate one of the two
footprints by the mtv yields a pair on which the engine reports no overlap:
the translated projection intervals on ax touch without overlap, making ax a
separating axis. In the containment case this can fail, see the
counterexample. -/
theorem mtv_translation_separates (c1 c2 : RectangularCuboid)
    (h1 : WellFormed c1) (h2 : WellFormed c2)
    (ax : ℝ × ℝ) (hax : ax ∈ possible_separation_axes c1 c2)
    (hd : ¬ np_isclose (depth_overlap c1 c2) 0)
    (m1 M1 m2 M2 : ℝ)
    (hp1 : get_min_max_projections c1.lower_base_vertices ax = some (m1, M1))
    (hp2 : get_min_max_projections c2.lower_base_vertices ax = some (m2, M2))
    (_hmtv : apply_separating_axis_theorem c1 c2
      = some (overlap_on_axis c1 c2 ax * ax.1, overlap_on_axis c1 c2 ax * ax.2))
    (hcont : (m1 ≤ m2 ∧ M1 ≤ M2) ∨ (m2 ≤ m1 ∧ M2 ≤ M1)) :
    apply_separating_axis_theorem c1
        (translate2d c2 (overlap_on_axis c1 c2 ax * ax.1,
          overlap_on_axis c1 c2 ax * ax.2)) = some (0, 0) ∨
    apply_separating_axis_theorem
        (translate2d c1 (overlap_on_axis c1 c2 ax * ax.1,
          overlap_on_axis c1 c2 ax * ax.2)) c2 = some (0, 0) := by
  set d : ℝ := overlap_on_axis c1 c2 ax with hdd
  have hm1M1 : m1 ≤ M1 := get_min_max_le hp1
  have hm2M2 : m2 ≤ M2 := get_min_max_le hp2
  have hdval : d = determine_overlap_between_aligned_segments (m1, M1) (m2, M2) := by
    rw [hdd]
    unfold overlap_on_axis
    rw [hp1, hp2]
  have hdet : d = max 0 (min M2 M1 - max m2 m1) := by
    rw [hdval]
    simp only [determine_overlap_between_aligned_segments]
    rw [min_eq_left hm1M1, max_eq_right hm1M1, min_eq_left hm2M2,
      max_eq_right hm2M2]
  have hunit := possible_separation_axes_unit hax
  have hk : (d * ax.1) * ax.1 + (d * ax.2) * ax.2 = d := by
    have hr : (d * ax.1) * ax.1 + (d * ax.2) * ax.2 = d * (ax.1 ^ 2 + ax.2 ^ 2) := by
      ring
    rw [hr, hunit, mul_one]
  rcases hcont with ⟨hm, hM⟩ | ⟨hm, hM⟩
  · left
    set v : ℝ × ℝ := (d * ax.1, d * ax.2) with hv
    have hwf2 : WellFormed (translate2d c2 v) := wellFormed_mkCuboid _ _ _ _
    have hdepth : ¬ np_isclose (depth_overlap c1 (translate2d c2 v)) 0 := hd
    have haxeq : possible_separation_axes c1 (translate2d c2 v)
        = possible_separation_axes c1 c2 := rfl
    have hverts : (translate2d c2 v).lower_base_vertices
        = c2.lower_base_vertices.map (fun p => (p.1 + v.1, p.2 + v.2)) := by
      show calculate_vertices_of_rotated_rectangle
          (c2.center.1 + v.1, c2.center.2.1 + v.2) c2.length c2.width
          c2.deg_rotation = _
      rw [calculate_vertices_translate, ← h2]
    have hk2 : v.1 * ax.1 + v.2 * ax.2 = d := by
      rw [hv]
      exact hk
    have hp2' : get_min_max_projections (translate2d c2 v).lower_base_vertices ax
        = some (m2 + d, M2 + d) := by
      rw [hverts, get_min_max_projections_map_add hp2, hk2]
    have hover0 : overlap_on_axis c1 (translate2d c2 v) ax = 0 := by
      unfold overlap_on_axis
      rw [hp1, hp2']
      simp only [determine_overlap_between_aligned_segments]
      rw [min_eq_left hm1M1, max_eq_right hm1M1,
        min_eq_left (by linarith : m2 + d ≤ M2 + d),
        max_eq_right (by linarith : m2 + d ≤ M2 + d)]
      apply max_eq_left
      have hdge : M1 - m2 ≤ d := by
        rw [hdet, min_eq_right hM, max_eq_left hm]
        exact le_max_right _ _
      have ha : min (M2 + d) M1 ≤ M1 := min_le_right _ _
      have hb : m2 + d ≤ max (m2 + d) m1 := le_max_left _ _
      linarith
    apply sat_depth_far_exists_close h1 hwf2 hdepth
    refine ⟨ax, ?_, ?_⟩
    · rw [haxeq]
      exact hax
    · rw [hover0]
      exact np_isclose_zero_zero
  · right
    set v : ℝ × ℝ := (d * ax.1, d * ax.2) with hv
    have hwf1 : WellFormed (translate2d c1 v) := wellFormed_mkCuboid _ _ _ _
    have hdepth : ¬ np_isclose (depth_overlap (translate2d c1 v) c2) 0 := hd
    have haxeq : possible_separation_axes (translate2d c1 v) c2
        = possible_separation_axes c1 c2 := rfl
    have hverts : (translate2d c1 v).lower_base_vertices
        = c1.lower_base_vertices.map (fun p => (p.1 + v.1, p.2 + v.2)) := by
      show calculate_vertices_of_rotated_rectangle
          (c1.center.1 + v.1, c1.center.2.1 + v.2) c1.length c1.width
          c1.deg_rotation = _
      rw [calculate_vertices_translate, ← h1]
    have hk2 : v.1 * ax.1 + v.2 * ax.2 = d := by
      rw [hv]
      exact hk
    have hp1' : get_min_max_projections (translate2d c1 v).lower_base_vertices ax
        = some (m1 + d, M1 + d) := by
      rw [hverts, get_min_max_projections_map_add hp1, hk2]
    have hover0 : overlap_on_axis (translate2d c1 v) c2 ax = 0 := by
      unfold overlap_on_axis
      rw [hp1', hp2]
      simp only [determine_overlap_between_aligned_segments]
      rw [min_eq_left (by linarith : m1 + d ≤ M1 + d),
        max_eq_right (by linarith : m1 + d ≤ M1 + d),
        min_eq_left hm2M2, max_eq_right hm2M2]
      apply max_eq_left
      have hdge : M2 - m1 ≤ d := by
        rw [hdet, min_eq_left hM, max_eq_right hm]
        exact le_max_right _ _
      have ha : min M2 (M1 + d) ≤ M2 := min_le_left _ _
      have hb : m1 + d ≤ max m2 (m1 + d) := le_max_right _ _
      linarith
    apply sat_depth_far_exists_close hwf1 h2 hdepth
    refine ⟨ax, ?_, ?_⟩
    · rw [haxeq]
      exact hax
    · rw [hover0]
      exact np_isclose_zero_zero

/-- C2 witness: the regression pair is non-nested on the x axis, so one of the
two translations by the mtv (0.8, 0) removes the overlap. -/
theorem mtv_translation_separates_witness :
    apply_separating_axis_theorem test_cuboid1
      (translate2d test_cuboid2 (0.8, 0)) = some (0, 0) ∨
    apply_separating_axis_theorem
      (translate2d test_cuboid1 (0.8, 0)) test_cuboid2 = some (0, 0) := by
  have hd : ¬ np_isclose (depth_overlap test_cuboid1 test_cuboid2) 0 := by
    have h2 : depth_overlap test_cuboid1 test_cuboid2 = 2 := by
      show determine_overlap_between_aligned_segments ((0:ℝ), 0 + 2)
        ((0:ℝ), 0 + 2) = 2
      exact overlap_segments_eval_22
    rw [h2]
    exact not_isclose_two
  have haxlist : possible_separation_axes test_cuboid1 test_cuboid2
      = [(1, 0), (0, 1)] := axes_rot0 rfl rfl
  have hax : ((1:ℝ), (0:ℝ)) ∈ possible_separation_axes test_cuboid1 test_cuboid2 := by
    rw [haxlist]
    exact List.mem_cons_self _ _
  have hp1 : get_min_max_projections test_cuboid1.lower_base_vertices
      ((1:ℝ), (0:ℝ)) = some (-1, 2) := by
    have h := minmax_rot0_x 0.5 0 0 3 2 2 "item1" (by norm_num)
    rw [show test_cuboid1 = mkCuboid (0.5, 0, 0) (3, 2, 2) 0 "item1" from rfl, h]
    norm_num
  have hp2 : get_min_max_projections test_cuboid2.lower_base_vertices
      ((1:ℝ), (0:ℝ)) = some (1.2, 4.2) := by
    have h := minmax_rot0_x 2.7 0 0 3 2 2 "item2" (by norm_num)
    rw [show test_cuboid2 = mkCuboid (2.7, 0, 0) (3, 2, 2) 0 "item2" from rfl, h]
    norm_num
  have hoax : overlap_on_axis test_cuboid1 test_cuboid2 ((1:ℝ), (0:ℝ)) = 0.8 := by
    unfold overlap_on_axis
    rw [hp1, hp2]
    simp only [determine_overlap_between_aligned_segments]
    norm_num [min_def, max_def]
  have hmtv : apply_separating_axis_theorem test_cuboid1 test_cuboid2
      = some (overlap_on_axis test_cuboid1 test_cuboid2 ((1:ℝ), (0:ℝ))
            * ((1:ℝ), (0:ℝ)).1,
          overlap_on_axis test_cuboid1 test_cuboid2 ((1:ℝ), (0:ℝ))
            * ((1:ℝ), (0:ℝ)).2) := by
    rw [hoax, show ((0.8:ℝ) * ((1:ℝ), (0:ℝ)).1, (0.8:ℝ) * ((1:ℝ), (0:ℝ)).2)
      = ((0.8:ℝ), (0:ℝ)) from by norm_num]
    exact sat_test_pair_eval
  have h := mtv_translation_separates test_cuboid1 test_cuboid2
    (wellFormed_mkCuboid _ _ _ _) (wellFormed_mkCuboid _ _ _ _)
    ((1:ℝ), (0:ℝ)) hax hd (-1) 2 1.2 4.2 hp1 hp2 hmtv
    (Or.inl (by norm_num))
  rw [hoax, show ((0.8:ℝ) * ((1:ℝ), (0:ℝ)).1, (0.8:ℝ) * ((1:ℝ), (0:ℝ)).2)
    = ((0.8:ℝ), (0:ℝ)) from by norm_num] at h
  exact h

theorem gpsa_45 : get_potential_separation_axes 45
    = ((Real.sqrt 2 / 2, -(Real.sqrt 2 / 2)),
       (Real.sqrt 2 / 2, Real.sqrt 2 / 2)) := by
  have hm : pyMod (-(45:ℝ) + 90) 360 = -(45:ℝ) + 90 := by
    apply pyMod_small <;> norm_num
  simp only [get_potential_separation_axes, hm]
  rw [show (-(45:ℝ) + 90) = (45:ℝ) by norm_num]
  rw [show degToRad (-(45:ℝ)) = -(Real.pi / 4) by unfold degToRad; ring]
  rw [show degToRad (45:ℝ) = Real.pi / 4 by unfold degToRad; ring]
  rw [Real.cos_neg, Real.sin_neg, Real.cos_pi_div_four, Real.sin_pi_div_four]

theorem gpsa_neg45 : get_potential_separation_axes (-45)
    = ((Real.sqrt 2 / 2, Real.sqrt 2 / 2),
       (-(Real.sqrt 2 / 2), Real.sqrt 2 / 2)) := by
  have hm : pyMod (-(-45:ℝ) + 90) 360 = -(-45:ℝ) + 90 := by
    apply pyMod_small <;> norm_num
  simp only [get_potential_separation_axes, hm]
  rw [show degToRad (-(-45:ℝ)) = Real.pi / 4 by unfold degToRad; ring]
  rw [show (-(-45:ℝ) + 90) = (135:ℝ) by norm_num]
  rw [show degToRad (135:ℝ) = Real.pi - Real.pi / 4 by unfold degToRad; ring]
  rw [Real.cos_pi_sub, Real.sin_pi_sub, Real.cos_pi_div_four, Real.sin_pi_div_four]

theorem sqrt_two_bounds : (1.4142:ℝ) ≤ Real.sqrt 2 ∧ Real.sqrt 2 ≤ 1.41422 := by
  constructor
  · rw [show (1.4142:ℝ) = Real.sqrt (1.4142 ^ 2) from
      (Real.sqrt_sq (by norm_num)).symm]
    apply Real.sqrt_le_sqrt
    norm_num
  · rw [show (1.41422:ℝ) = Real.sqrt (1.41422 ^ 2) from
      (Real.sqrt_sq (by norm_num)).symm]
    apply Real.sqrt_le_sqrt
    norm_num

/-- C5: the candidate separation axes at rotation 0 are exactly (1, 0) and
(0, 1); at rotation 45 they are within 1e-4 of (0.7071, -0.7071) and
(0.7071, 0.7071); at rotation -45 they are within 1e-4 of (0.7071, 0.7071)
and (-0.7071, 0.7071); in the code this comes from flipping the sign of the
clockwise angle before taking cosine and sine. -/
theorem separation_axes_values :
    get_potential_separation_axes 0 = ((1, 0), (0, 1)) ∧
    (|(get_potential_separation_axes 45).1.1 - 0.7071| ≤ 1e-4 ∧
     |(get_potential_separation_axes 45).1.2 + 0.7071| ≤ 1e-4 ∧
     |(get_potential_separation_axes 45).2.1 - 0.7071| ≤ 1e-4 ∧
     |(get_potential_separation_axes 45).2.2 - 0.7071| ≤ 1e-4) ∧
    (|(get_potential_separation_axes (-45)).1.1 - 0.7071| ≤ 1e-4 ∧
     |(get_potential_separation_axes (-45)).1.2 - 0.7071| ≤ 1e-4 ∧
     |(get_potential_separation_axes (-45)).2.1 + 0.7071| ≤ 1e-4 ∧
     |(get_potential_separation_axes (-45)).2.2 - 0.7071| ≤ 1e-4) := by
  have hb := sqrt_two_bounds
  refine ⟨gpsa_zero, ⟨?_, ?_, ?_, ?_⟩, ⟨?_, ?_, ?_, ?_⟩⟩
  · rw [gpsa_45]
    show |Real.sqrt 2 / 2 - 0.7071| ≤ 1e-4
    rw [abs_le]
    constructor <;> linarith [hb.1, hb.2]
  · rw [gpsa_45]
    show |-(Real.sqrt 2 / 2) + 0.7071| ≤ 1e-4
    rw [abs_le]
    constructor <;> linarith [hb.1, hb.2]
  · rw [gpsa_45]
    show |Real.sqrt 2 / 2 - 0.7071| ≤ 1e-4
    rw [abs_le]
    constructor <;> linarith [hb.1, hb.2]
  · rw [gpsa_45]
    show |Real.sqrt 2 / 2 - 0.7071| ≤ 1e-4
    rw [abs_le]
    constructor <;> linarith [hb.1, hb.2]
  · rw [gpsa_neg45]
    show |Real.sqrt 2 / 2 - 0.7071| ≤ 1e-4
    rw [abs_le]
    constructor <;> linarith [hb.1, hb.2]
  · rw [gpsa_neg45]
    show |Real.sqrt 2 / 2 - 0.7071| ≤ 1e-4
    rw [abs_le]
    constructor <;> linarith [hb.1, hb.2]
  · rw [gpsa_neg45]
    show |-(Real.sqrt 2 / 2) + 0.7071| ≤ 1e-4
    rw [abs_le]
    constructor <;> linarith [hb.1, hb.2]
  · rw [gpsa_neg45]
    show |Real.sqrt 2 / 2 - 0.7071| ≤ 1e-4
    rw [abs_le]
    constructor <;> linarith [hb.1, hb.2]

/-- C9 amended: calculate_clockwise_rotated_2d_points returns the rotated
points but leaves the caller points array translated in place by minus the
center of rotation (the statement points -= center_of_rotation is never
undone on that array); the input is unchanged exactly in the default case of
a zero center of rotation. -/
theorem rotated_points_input_state (points : List (ℝ × ℝ)) (angle_deg : ℝ)
    (center_of_rotation : ℝ × ℝ) :
    (calculate_clockwise_rotated_2d_points points angle_deg center_of_rotation).2
      = points.map (fun p => (p.1 - center_of_rotation.1,
          p.2 - center_of_rotation.2)) ∧
    (calculate_clockwise_rotated_2d_points points angle_deg (0, 0)).2
      = points := by
  constructor
  · rfl
  · simp [calculate_clockwise_rotated_2d_points, sub_zero, Prod.mk.eta]

/-- C9 counterexample: rotating the single point (1, 1) by 0 degrees about
the center (1, 0) leaves the caller array holding (0, 1), not the original
value, so the function is not free of side effects on its arguments. -/
theorem rotated_points_mutation_counterexample :
    (calculate_clockwise_rotated_2d_points [((1:ℝ), (1:ℝ))] 0 (1, 0)).2
      ≠ [((1:ℝ), (1:ℝ))] := by
  intro h
  have h2 : (((1:ℝ) - 1, (1:ℝ) - 0)) = (((1:ℝ), (1:ℝ))) := List.head_eq_of_cons_eq h
  have h3 : (1:ℝ) - 1 = 1 := congrArg Prod.fst h2
  norm_num at h3

/-- C10 amended: RectangularCuboid.init raises exactly when the centroid
dtype is not np.float_ (float64) - in particular float32, although a
floating-point dtype, is rejected; on a float64 centroid it succeeds and sets
the fields, with lower_base_vertices computed from the first two centroid
components, the cuboid length passed as the 2d width and the cuboid width
passed as the 2d height. -/
theorem rectangular_cuboid_init_spec (arr : NpArray3) (dims : ℝ × ℝ × ℝ)
    (rotation : ℝ) (name : String) :
    ((∃ msg, RectangularCuboid.init arr dims rotation name = Except.error msg)
      ↔ arr.dtype ≠ NpDtype.float64) ∧
    (∀ c, RectangularCuboid.init arr dims rotation name = Except.ok c →
      c.center = arr.data ∧ c.length = dims.1 ∧ c.width = dims.2.1 ∧
      c.height = dims.2.2 ∧ c.deg_rotation = rotation ∧ c.name = name ∧
      c.lower_base_vertices = calculate_vertices_of_rotated_rectangle
        (arr.data.1, arr.data.2.1) dims.1 dims.2.1 rotation) := by
  unfold RectangularCuboid.init
  by_cases h : arr.dtype ≠ NpDtype.float64
  · rw [if_pos h]
    constructor
    · exact ⟨fun _ => h, fun _ => ⟨_, rfl⟩⟩
    · intro c hc
      exact Except.noConfusion hc
  · rw [if_neg h]
    constructor
    · constructor
      · rintro ⟨msg, hmsg⟩
        exact Except.noConfusion hmsg
      · intro hd
        exact absurd hd h
    · intro c hc
      have hc2 := Except.ok.inj hc
      rw [← hc2]
      exact ⟨rfl, rfl, rfl, rfl, rfl, rfl, rfl⟩

/-- C10 witness: a float64 centroid (1, 2, 3) succeeds and its stored
vertices are the rotated-rectangle vertices of its first two components. -/
theorem rectangular_cuboid_init_spec_witness :
    RectangularCuboid.init centroid_f64 (1, 2, 3) 0 "c"
      = Except.ok (mkCuboid (1, 2, 3) (1, 2, 3) 0 "c") ∧
    (mkCuboid (1, 2, 3) (1, 2, 3) 0 "c").lower_base_vertices
      = calculate_vertices_of_rotated_rectangle
          (centroid_f64.data.1, centroid_f64.data.2.1) 1 2 0 := by
  have hinit : RectangularCuboid.init centroid_f64 (1, 2, 3) 0 "c"
      = Except.ok (mkCuboid (1, 2, 3) (1, 2, 3) 0 "c") := rfl
  refine ⟨hinit, ?_⟩
  have h := (rectangular_cuboid_init_spec centroid_f64 (1, 2, 3) 0 "c").2
    (mkCuboid (1, 2, 3) (1, 2, 3) 0 "c") hinit
  exact h.2.2.2.2.2.2

/-- C10 counterexample: a float32 centroid has a floating-point dtype, yet
the constructor raises, because the dtype test compares against np.float_,
an alias of float64 only. -/
theorem rectangular_cuboid_init_float32_counterexample :
    centroid_f32.dtype.isFloating = true ∧
    ∃ msg, RectangularCuboid.init centroid_f32 (1, 2, 3) 0 "c"
      = Except.error msg := by
  exact ⟨rfl, ⟨_, rfl⟩⟩

theorem mem_allPairs {l : List α} {p : α × α} :
    p ∈ allPairs l ↔ ∃ i j : Fin l.length, i < j ∧ p = (l.get i, l.get j) := by
  induction l with
  | nil =>
    simp only [allPairs, List.not_mem_nil, false_iff]
    rintro ⟨i, _, _, _⟩
    exact i.elim0
  | cons x xs ih =>
    simp only [allPairs, List.mem_append]
    constructor
    · intro h
      rcases h with h | h
      · obtain ⟨y, hy, hxy⟩ := List.mem_map.mp h
        obtain ⟨j, hj⟩ := List.mem_iff_get.mp hy
        refine ⟨⟨0, Nat.succ_pos xs.length⟩, j.succ, ?_, ?_⟩
        · simp [Fin.lt_def]
        · rw [← hxy, ← hj]
          rfl
      · obtain ⟨i, j, hij, hp⟩ := ih.mp h
        refine ⟨i.succ, j.succ, Fin.succ_lt_succ_iff.mpr hij, ?_⟩
        rw [hp]
        rfl
    · rintro ⟨i, j, hij, hp⟩
      rcases Fin.eq_zero_or_eq_succ i with hi | ⟨i', hi'⟩
      · rcases Fin.eq_zero_or_eq_succ j with hj | ⟨j', hj'⟩
        · rw [hi, hj] at hij
          exact absurd hij (lt_irrefl _)
        · left
          apply List.mem_map.mpr
          refine ⟨xs.get j', List.get_mem _ _ _, ?_⟩
          rw [hp, hi, hj']
          rfl
      · rcases Fin.eq_zero_or_eq_succ j with hj | ⟨j', hj'⟩
        · rw [hi', hj] at hij
          exact absurd hij (by simp [Fin.lt_def])
        · right
          apply ih.mpr
          refine ⟨i', j', ?_, ?_⟩
          · rw [hi', hj'] at hij
            exact Fin.succ_lt_succ_iff.mp hij
          · rw [hp, hi', hj']
            rfl

theorem check_fold_nil (acc : Finset String) : check_fold acc [] = some acc := rfl

theorem check_fold_cons (acc : Finset String)
    (p : RectangularCuboid × RectangularCuboid)
    (rest : List (RectangularCuboid × RectangularCuboid)) :
    check_fold acc (p :: rest)
      = (apply_separating_axis_theorem p.1 p.2).bind fun mtv =>
          if np_isclose mtv.1 0 ∧ np_isclose mtv.2 0 then check_fold acc rest
          else check_fold (insert p.1.name (insert p.2.name acc)) rest := rfl

theorem check_fold_spec :
    ∀ (pairs : List (RectangularCuboid × RectangularCuboid))
      (acc : Finset String),
      (∀ p ∈ pairs, WellFormed p.1 ∧ WellFormed p.2) →
      ∃ s, check_fold acc pairs = some s ∧
        ∀ name : String, (name ∈ s ↔ name ∈ acc ∨ ∃ p ∈ pairs,
          pair_overlaps p.1 p.2 ∧ (name = p.1.name ∨ name = p.2.name)) := by
  intro pairs
  induction pairs with
  | nil =>
    intro acc _
    refine ⟨acc, rfl, fun name => ?_⟩
    simp
  | cons p rest ih =>
    intro acc hwf
    have hp := hwf p (List.mem_cons_self _ _)
    have hrest : ∀ q ∈ rest, WellFormed q.1 ∧ WellFormed q.2 :=
      fun q hq => hwf q (List.mem_cons_of_mem _ hq)
    have hsome := sat_isSome p.1 p.2 hp.1 hp.2
    obtain ⟨mtv, hmtv⟩ := Option.isSome_iff_exists.mp hsome
    by_cases hclose : np_isclose mtv.1 0 ∧ np_isclose mtv.2 0
    · have hnop : ¬ pair_overlaps p.1 p.2 := by
        rintro ⟨v, hv, hnc⟩
        rw [hmtv] at hv
        rw [← Option.some.inj hv] at hnc
        exact hnc hclose
      have hfold : check_fold acc (p :: rest) = check_fold acc rest := by
        rw [check_fold_cons, hmtv, Option.some_bind, if_pos hclose]
      obtain ⟨s, hs, hiff⟩ := ih acc hrest
      refine ⟨s, by rw [hfold]; exact hs, ?_⟩
      intro name
      rw [hiff name]
      constructor
      · rintro (h | ⟨q, hq, hov, hname⟩)
        · exact Or.inl h
        · exact Or.inr ⟨q, List.mem_cons_of_mem _ hq, hov, hname⟩
      · rintro (h | ⟨q, hq, hov, hname⟩)
        · exact Or.inl h
        · rcases List.mem_cons.mp hq with hq | hq
          · rw [hq] at hov
            exact absurd hov hnop
          · exact Or.inr ⟨q, hq, hov, hname⟩
    · have hov : pair_overlaps p.1 p.2 := ⟨mtv, hmtv, hclose⟩
      have hfold : check_fold acc (p :: rest)
          = check_fold (insert p.1.name (insert p.2.name acc)) rest := by
        rw [check_fold_cons, hmtv, Option.some_bind, if_neg hclose]
      obtain ⟨s, hs, hiff⟩ := ih (insert p.1.name (insert p.2.name acc)) hrest
      refine ⟨s, by rw [hfold]; exact hs, ?_⟩
      intro name
      rw [hiff name]
      constructor
      · rintro (h | ⟨q, hq, hovq, hname⟩)
        · rcases Finset.mem_insert.mp h with h | h
          · exact Or.inr ⟨p, List.mem_cons_self _ _, hov, Or.inl h⟩
          · rcases Finset.mem_insert.mp h with h | h
            · exact Or.inr ⟨p, List.mem_cons_self _ _, hov, Or.inr h⟩
            · exact Or.inl h
        · exact Or.inr ⟨q, List.mem_cons_of_mem _ hq, hovq, hname⟩
      · rintro (h | ⟨q, hq, hovq, hname⟩)
        · exact Or.inl (Finset.mem_insert_of_mem (Finset.mem_insert_of_mem h))
        · rcases List.mem_cons.mp hq with hq | hq
          · rw [hq] at hname
            rcases hname with h1 | h1
            · exact Or.inl (by rw [h1]; exact Finset.mem_insert_self _ _)
            · exact Or.inl (by
                rw [h1]
                exact Finset.mem_insert_of_mem (Finset.mem_insert_self _ _))
          · exact Or.inr ⟨q, hq, hovq, hname⟩

/-- C4: for every list of well-formed footprints,
check_overlaps_between_cuboids returns exactly the set of names of footprints
participating in at least one overlapping pair among all 0 <= i < j < n pairs,
where a pair counts as overlapping when the engine mtv is not componentwise
isclose to zero; in particular a scene with no overlapping pair yields the
empty set. -/
theorem checker_exact_name_set (cuboids : List RectangularCuboid)
    (hwf : ∀ c ∈ cuboids, WellFormed c) (s : Finset String)
    (hs : check_overlaps_between_cuboids cuboids = some s) (name : String) :
    name ∈ s ↔ ∃ i j : Fin cuboids.length, i < j ∧
      pair_overlaps (cuboids.get i) (cuboids.get j) ∧
      (name = (cuboids.get i).name ∨ name = (cuboids.get j).name) := by
  have hwfp : ∀ p ∈ allPairs cuboids, WellFormed p.1 ∧ WellFormed p.2 := by
    intro p hp
    obtain ⟨i, j, _, hpe⟩ := mem_allPairs.mp hp
    rw [hpe]
    exact ⟨hwf _ (List.get_mem _ _ _), hwf _ (List.get_mem _ _ _)⟩
  obtain ⟨s0, hs0, hiff⟩ := check_fold_spec (allPairs cuboids) ∅ hwfp
  have hss : s = s0 := by
    have h2 := hs
    unfold check_overlaps_between_cuboids at h2
    rw [hs0] at h2
    exact (Option.some.inj h2).symm
  rw [hss, hiff name]
  simp only [Finset.not_mem_empty, false_or]
  constructor
  · rintro ⟨p, hp, hov, hname⟩
    obtain ⟨i, j, hij, hpe⟩ := mem_allPairs.mp hp
    rw [hpe] at hov hname
    exact ⟨i, j, hij, hov, hname⟩
  · rintro ⟨i, j, hij, hov, hname⟩
    exact ⟨(cuboids.get i, cuboids.get j), mem_allPairs.mpr ⟨i, j, hij, rfl⟩,
      hov, hname⟩

/-- C4 witness: the three-item scene where exactly A and C overlap returns the
set with elements A and C, and membership of C matches the pair
characterization. -/
theorem checker_exact_name_set_witness :
    check_overlaps_between_cuboids [scene_a, scene_b, scene_c]
      = some (insert "A" (insert "C" (∅ : Finset String))) ∧
    ("C" ∈ insert "A" (insert "C" (∅ : Finset String)) ↔
      ∃ i j : Fin ([scene_a, scene_b, scene_c].length), i < j ∧
        pair_overlaps ([scene_a, scene_b, scene_c].get i)
          ([scene_a, scene_b, scene_c].get j) ∧
        ("C" = ([scene_a, scene_b, scene_c].get i).name ∨
         "C" = ([scene_a, scene_b, scene_c].get j).name)) := by
  have heval : check_overlaps_between_cuboids [scene_a, scene_b, scene_c]
      = some (insert "A" (insert "C" (∅ : Finset String))) := by
    unfold check_overlaps_between_cuboids
    show check_fold ∅ [(scene_a, scene_b), (scene_a, scene_c),
      (scene_b, scene_c)] = _
    rw [check_fold_cons, sat_scene_ab_eval, Option.some_bind,
      if_pos ⟨np_isclose_zero_zero, np_isclose_zero_zero⟩]
    rw [check_fold_cons, sat_scene_ac_eval, Option.some_bind,
      if_neg (fun hc => not_isclose_one hc.1)]
    rw [check_fold_cons, sat_scene_bc_eval, Option.some_bind,
      if_pos ⟨np_isclose_zero_zero, np_isclose_zero_zero⟩]
    rw [check_fold_nil]
    rfl
  have hwf : ∀ c ∈ [scene_a, scene_b, scene_c], WellFormed c := by
    intro c hc
    rcases List.mem_cons.mp hc with h | hc
    · rw [h]
      exact wellFormed_mkCuboid _ _ _ _
    rcases List.mem_cons.mp hc with h | hc
    · rw [h]
      exact wellFormed_mkCuboid _ _ _ _
    rcases List.mem_cons.mp hc with h | hc
    · rw [h]
      exact wellFormed_mkCuboid _ _ _ _
    · simp at hc
  exact ⟨heval, checker_exact_name_set [scene_a, scene_b, scene_c] hwf _
    heval "C"⟩
